import Mathlib

/-!
# vedran: reverse-tunnel connection pool and tunnel client

A shallow embedding of `pkg/http-tunnel/server/pool.go` and
`pkg/http-tunnel/client/client.go`.

Conventions of the embedding

* Go values that are only compared by identity (`net.Conn`, `*http2.ClientConn`)
  are natural numbers.
* The Go map `conns map[string]connPair` is an association list with distinct
  keys (`AList`).  The order of its entries stands for the (unspecified) order in
  which `range` visits the map; statements quantify over every pool, hence over
  every order.
* Each pool method runs under `p.mu`, so it is one atomic function from the pool
  to a result, the new pool and the list of effects it had on the outside world
  (transports closed, release callback invocations), in program order.
* The behaviour of the `http2` library (`Transport.NewClientConn`,
  `ClientConn.Ping`, `ClientConn.CanTakeNewRequest`) is a parameter.
-/

namespace Vedran

/-! ## Time -/

/-- Go `time.Duration`: a signed 64-bit count of nanoseconds. -/
abbrev Duration := Int

/-- Go `time.Time`, as nanoseconds on one time line; `0` is the zero `Time`. -/
abbrev Time := Int

def Nanosecond : Duration := 1
def Millisecond : Duration := 1000000 * Nanosecond
def Second : Duration := 1000 * Millisecond
def Minute : Duration := 60 * Second

def minDuration : Duration := -(2 ^ 63)
def maxDuration : Duration := 2 ^ 63 - 1

/-- Go `Time.Sub`: the difference `t - u`, saturated to the range of `Duration`. -/
def Time.Sub (t u : Time) : Duration :=
  if t - u > maxDuration then maxDuration
  else if t - u < minDuration then minDuration
  else t - u

/-- Go `time.Since(start)` read at the instant `now`: `now.Sub(start)`. -/
def Since (now start : Time) : Duration := Time.Sub now start

/-- Go `Duration.Seconds`: `sec := d / Second; nsec := d % Second;
`float64(sec) + float64(nsec)/1e9`, with Go's truncating `/` and `%`.  The value
is kept exact (a rational). -/
def Duration.Seconds (d : Duration) : ℚ :=
  ((Int.tdiv d Second : Int) : ℚ) + ((Int.tmod d Second : Int) : ℚ) / 1000000000

/-! ## Server connection pool (`pool.go`) -/

/-- Identity of a `net.Conn`. -/
abbrev Conn := Nat

/-- Identity of a `*http2.ClientConn`. -/
abbrev ClientConn := Nat

/-- Errors a pool method can return: the two sentinels of package `server` and the
errors produced inside the `http2` library (told apart by a code). -/
inductive PoolError where
  | errClientNotConnected
  | errClientAlreadyConnected
  | http2 (code : Nat)
  deriving DecidableEq, Repr

structure connPair where
  conn : Conn
  clientConn : ClientConn
  deriving DecidableEq, Repr

/-- Behaviour of the `http2` library as the pool observes it. -/
structure Http2 where
  /-- Go `(*http2.Transport).NewClientConn(conn)`: a handle, or an error code. -/
  NewClientConn : Conn → Except Nat ClientConn
  /-- Go `(*http2.ClientConn).Ping(ctx)`: `none` is Go's `nil` error. -/
  Ping : ClientConn → Option Nat
  /-- Nanoseconds the call to `Ping` takes on the monotonic clock. -/
  pingElapsed : ClientConn → Nat
  /-- Go `(*http2.ClientConn).CanTakeNewRequest()`. -/
  CanTakeNewRequest : ClientConn → Bool

/-- Effects of a pool method on the outside world. -/
inductive Effect where
  /-- Go `cp.conn.Close()` -/
  | connClose (c : Conn)
  /-- Go `p.free(addr)` -/
  | free (addr : String)
  deriving DecidableEq, Repr

/-- The pool.  `free` is `true` iff the Go field `free` is not `nil`; the field `t`
is the `Http2` parameter of the methods; `mu` is the atomicity of each method. -/
structure connPool where
  conns : AList (fun _ : String => connPair)
  free : Bool

/-- Go `newConnPool(t, f)`; `f` is `true` iff a callback is given. -/
def newConnPool (f : Bool) : connPool :=
  { conns := ∅, free := f }

/-- Go `connPool.URL(identifier)`. -/
def connPool.URL (_p : connPool) (identifier : String) : String :=
  "https://" ++ identifier

/-- Go `connPool.ping`: the probe's error (`none` is `nil`). -/
def connPool.ping (h : Http2) (_p : connPool) (cp : connPair) : Option PoolError :=
  (h.Ping cp.clientConn).map PoolError.http2

/-- Go `connPool.close`: close the transport, delete the entry, call `free` if set. -/
def connPool.close (p : connPool) (cp : connPair) (addr : String) :
    connPool × List Effect :=
  ({ p with conns := p.conns.erase addr },
    Effect.connClose cp.conn :: (if p.free then [Effect.free addr] else []))

/-- Go `connPool.GetClientConn(req, addr)`; the request is not used by the code. -/
def connPool.GetClientConn (h : Http2) (p : connPool) (addr : String) :
    Except PoolError ClientConn :=
  match p.conns.lookup addr with
  | some cp =>
    if h.CanTakeNewRequest cp.clientConn then .ok cp.clientConn
    else .error .errClientNotConnected
  | none => .error .errClientNotConnected

/-- Go `connPool.MarkDead(c)`: the `range` loop returns at the first entry whose
handle is `c`. -/
def connPool.MarkDead (p : connPool) (c : ClientConn) : connPool × List Effect :=
  match p.conns.entries.find? (fun e => e.2.clientConn == c) with
  | some e => p.close e.2 e.1
  | none => (p, [])

/-- Lines 77-86 of `AddConn`: wrap `conn` and store the pair under `addr`; `fx` are
the effects so far. -/
def connPool.register (h : Http2) (p : connPool) (conn : Conn) (addr : String)
    (fx : List Effect) : Option PoolError × connPool × List Effect :=
  match h.NewClientConn conn with
  | .error e => (some (.http2 e), p, fx)
  | .ok c => (none, { p with conns := p.conns.insert addr ⟨conn, c⟩ }, fx)

/-- Go `connPool.AddConn(conn, identifier)`; the first component is the returned
error (`none` is `nil`). -/
def connPool.AddConn (h : Http2) (p : connPool) (conn : Conn) (identifier : String) :
    Option PoolError × connPool × List Effect :=
  let addr := identifier
  match p.conns.lookup addr with
  | some cp =>
    match p.ping h cp with
    | some _ =>
      let (p1, fx) := p.close cp addr
      p1.register h conn addr fx
    | none => (some .errClientAlreadyConnected, p, [])
  | none => p.register h conn addr []

/-- Go `connPool.DeleteConn(identifier)`. -/
def connPool.DeleteConn (p : connPool) (identifier : String) : connPool × List Effect :=
  let addr := identifier
  match p.conns.lookup addr with
  | some cp => p.close cp addr
  | none => (p, [])

/-- Go `connPool.Ping(identifier)`, called when the clock reads `start`. -/
def connPool.Ping (h : Http2) (p : connPool) (identifier : String) (start : Time) :
    (Duration × Option PoolError) × connPool × List Effect :=
  let addr := identifier
  match p.conns.lookup addr with
  | some cp =>
    let err := p.ping h cp
    ((Since (start + h.pingElapsed cp.clientConn) start, err), p, [])
  | none => ((0, some .errClientNotConnected), p, [])

/-! ### Concrete data used in examples -/

/-- A library state in which everything works: handle `100 + conn`, pings succeed
after 250 ns, handles accept requests. -/
def h2Healthy : Http2 :=
  { NewClientConn := fun conn => .ok (100 + conn)
    Ping := fun _ => none
    pingElapsed := fun _ => 250
    CanTakeNewRequest := fun _ => true }

/-- A library state in which the connection is broken: wrapping fails with code 7,
pings fail with code 9, handles accept nothing. -/
def h2Broken : Http2 :=
  { NewClientConn := fun _ => .error 7
    Ping := fun _ => some 9
    pingElapsed := fun _ => 10
    CanTakeNewRequest := fun _ => false }

/-- Wrapping works, but existing handles are dead. -/
def h2Stale : Http2 :=
  { NewClientConn := fun conn => .ok (100 + conn)
    Ping := fun _ => some 9
    pingElapsed := fun _ => 10
    CanTakeNewRequest := fun _ => false }

/-- A pool with a callback and the entry `"node-a" ↦ (conn 1, handle 101)`. -/
def poolA : connPool :=
  { conns := AList.insert "node-a" ⟨1, 101⟩ ∅, free := true }

/-- The same entry in a pool built with a `nil` callback. -/
def poolANoFree : connPool :=
  { conns := AList.insert "node-a" ⟨1, 101⟩ ∅, free := false }

/-- Two entries. -/
def poolAB : connPool :=
  { conns := AList.insert "node-b" ⟨2, 102⟩ (AList.insert "node-a" ⟨1, 101⟩ ∅), free := true }

/-! ## Tunnel client (`client.go`)

* A Go `error` is a value of `Error`, one constructor for each place that creates
  one; a wrapping `fmt.Errorf("...: %s", err)` keeps the wrapped error.  `nil` is
  `none`.
* Declarations of packages `client` and `proto` that `client.go` uses and that
  live in other files (`Backoff`, `ExpBackoff`, `MapTunnels`, `CreateProxy`,
  `ProxyFunc`, `proto.ActionProxy`, `proto.HeaderError`,
  `proto.ReadControlMessage`, the tunnel types) are the fields of a parameter
  `Pkg`.
* What the network does (the outcome of each dial, the requests that arrive while
  a connection is served, the clock) is a parameter `Env`.  The client's calls to
  the outside are recorded, in program order, in a trace.
* Loops that Go runs without bound take a fuel argument and return `none` when it
  runs out.  Calls to the logger have no effect on the state and are left out.
-/

/-- Go `error` values of the client. -/
inductive Error where
  /-- Go `errors.New("provided empty server address")` -/
  | emptyServerAddress
  /-- Go `errors.New("provided empty auth token")` -/
  | emptyAuthToken
  /-- Go `errors.New("tunnels maping is nil")` -/
  | tunnelsNil
  /-- Go `fmt.Errorf("already connected")` -/
  | alreadyConnected
  /-- Go `fmt.Errorf("failed to connect to server: %s", err)` -/
  | failedToConnect (err : Error)
  /-- Go `fmt.Errorf("backoff limit exeded: %s", err)` -/
  | backoffLimit (err : Error)
  /-- Go `fmt.Errorf("connection is being cut")` -/
  | connectionCut
  /-- Go `fmt.Errorf(r.Header.Get(proto.HeaderError))`: an error whose text is `msg`,
  the text `fmt` makes of the header used as a format -/
  | header (msg : String)
  /-- Go `fmt.Errorf("server error: %s", err)` -/
  | serverError (err : Error)
  /-- an error made outside `client.go` (`net`, `tunnel.KeepAlive`, `proto`) -/
  | external (code : Nat)
  deriving DecidableEq, Repr

/-! ### `fmt.Errorf` with a format and no operand

`handleHandshakeError` calls `fmt.Errorf(r.Header.Get(proto.HeaderError))`: the
header is the format string.  The functions below follow `doPrintf` of Go's
`fmt/print.go` for a call without operands. -/

namespace fmt

/-- Go `percentBangString`. -/
def percentBangString : List Char := "%!".toList
/-- Go `missingString`. -/
def missingString : List Char := "(MISSING)".toList
/-- Go `badIndexString`. -/
def badIndexString : List Char := "(BADINDEX)".toList
/-- Go `noVerbString`. -/
def noVerbString : List Char := "%!(NOVERB)".toList
/-- Go `badWidthString`. -/
def badWidthString : List Char := "%!(BADWIDTH)".toList
/-- Go `badPrecString`. -/
def badPrecString : List Char := "%!(BADPREC)".toList

/-- Go `tooLarge`, on the numbers `parsenum` builds (never negative). -/
def tooLarge (x : Nat) : Bool := decide (x > 1000000)

/-- Go `parsenum(s, start, end)` on the characters from `start` up to `end`, with
`num` and `isnum` the values accumulated so far.  The result `none` is the overflow
return `(0, false, end)`; otherwise the result is `isnum` and the characters from
`newi` on. -/
def parsenum : Nat → Bool → List Char → Option (Bool × List Char)
  | _, isnum, [] => some (isnum, [])
  | num, isnum, c :: cs =>
    if '0'.toNat ≤ c.toNat ∧ c.toNat ≤ '9'.toNat then
      if tooLarge num then none
      else parsenum (num * 10 + (c.toNat - '0'.toNat)) true cs
    else some (isnum, c :: cs)

/-- The search for the closing bracket in `parseArgNumber`: the characters before
the first `]` and those after it. -/
def splitBracket : List Char → Option (List Char × List Char)
  | [] => none
  | c :: cs =>
    if c = ']' then some ([], cs)
    else
      match splitBracket cs with
      | some (ds, after) => some (c :: ds, after)
      | none => none

/-- Go `parseArgNumber(format)` for a `format` that is `[` followed by `rest`: the
result `ok` and the characters after the `wid` characters it reports.  The test
`len(format) < 3` counts bytes; when `rest` has a single character, of any size, the
answer is `(0, 1, false)` either way. -/
def parseArgNumber (rest : List Char) : Bool × List Char :=
  if rest.length + 1 < 3 then (false, rest)
  else
    match splitBracket rest with
    | none => (false, rest)
    | some (ds, after) =>
      match parsenum 0 false ds with
      | some (true, []) => (true, after)
      | _ => (false, after)

/-- Go `pp.argNumber` when the call has no operand: the result `found`, the flag
`goodArgNum` afterwards and the characters from `newi` on.  With no operand no index
is in range, so a bracket always clears `goodArgNum`. -/
def argNumber (goodArgNum : Bool) : List Char → Bool × Bool × List Char
  | [] => (false, goodArgNum, [])
  | c :: rest =>
    if c = '[' then
      let (ok, r) := parseArgNumber rest
      (ok, false, r)
    else (false, goodArgNum, c :: rest)

/-- The loop `simpleFormat` of `doPrintf` when the call has no operand: the flags
are skipped (the fast path for simple verbs needs an operand). -/
def skipFlags : List Char → List Char
  | [] => []
  | c :: cs =>
    if c = '#' ∨ c = '0' ∨ c = '+' ∨ c = '-' ∨ c = ' ' then skipFlags cs
    else c :: cs

/-- What one stage of `doPrintf` leaves: the text written, `afterIndex`,
`p.goodArgNum` and the characters from `i` on. -/
structure Scan where
  out : List Char
  afterIndex : Bool
  goodArgNum : Bool
  rest : List Char

/-- The width stage of `doPrintf` with no operand: `*` finds no operand and writes
`badWidthString`; otherwise `parsenum`, whose overflow moves `i` to the end. -/
def width (afterIndex goodArgNum : Bool) : List Char → Scan
  | [] => ⟨[], afterIndex, goodArgNum, []⟩
  | c :: r =>
    if c = '*' then ⟨badWidthString, false, goodArgNum, r⟩
    else
      match parsenum 0 false (c :: r) with
      | none => ⟨[], afterIndex, goodArgNum, []⟩
      | some (widPresent, r1) =>
        ⟨[], afterIndex, goodArgNum && !(afterIndex && widPresent), r1⟩

/-- The precision stage of `doPrintf` after the `.` and its argument index, with no
operand: `*` writes `badPrecString`; otherwise `parsenum`. -/
def precisionNum (found good : Bool) : List Char → Scan
  | [] => ⟨[], found, good, []⟩
  | c :: r =>
    if c = '*' then ⟨badPrecString, false, good, r⟩
    else
      match parsenum 0 false (c :: r) with
      | none => ⟨[], found, good, []⟩
      | some (_, r1) => ⟨[], found, good, r1⟩

/-- The precision stage of `doPrintf` with no operand; a `.` opens it whenever a
character is left (`i+1 <= end && format[i] == '.'`). -/
def precision (afterIndex goodArgNum : Bool) : List Char → Scan
  | [] => ⟨[], afterIndex, goodArgNum, []⟩
  | c :: r =>
    if c = '.' then
      let (found, good, r1) := argNumber (goodArgNum && !afterIndex) r
      precisionNum found good r1
    else ⟨[], afterIndex, goodArgNum, c :: r⟩

/-- The end of one directive with no operand: `noVerbString` at the end of the format,
`%` for the verb `%`, `badArgNum` after a bad index, `missingArg` otherwise. -/
def verb (goodArgNum : Bool) : List Char → List Char × List Char
  | [] => (noVerbString, [])
  | v :: r =>
    if v = '%' then (['%'], r)
    else if !goodArgNum then (percentBangString ++ [v] ++ badIndexString, r)
    else (percentBangString ++ [v] ++ missingString, r)

/-- The argument index right before the verb: `if !afterIndex { ... argNumber }`. -/
def verbIndex (afterIndex goodArgNum : Bool) (cs : List Char) : Bool × List Char :=
  if afterIndex then (goodArgNum, cs)
  else ((argNumber goodArgNum cs).2.1, (argNumber goodArgNum cs).2.2)

/-- One directive of `doPrintf`, from the character after the `%`, with no operand:
the text written and the characters left. -/
def directive (cs : List Char) : List Char × List Char :=
  let a := argNumber true (skipFlags cs)
  let w := width a.1 a.2.1 a.2.2
  let p := precision w.afterIndex w.goodArgNum w.rest
  let i := verbIndex p.afterIndex p.goodArgNum p.rest
  let v := verb i.1 i.2
  (w.out ++ p.out ++ v.1, v.2)

/-- Go `pp.doPrintf(format, a)` with `a` empty: the text written, or `none` when the
fuel does not last.  Characters are Unicode code points; every byte `doPrintf`
tests is ASCII, so reading a valid UTF-8 string by code points changes nothing. -/
def doPrintf : Nat → List Char → Option (List Char)
  | _, [] => some []
  | 0, _ :: _ => none
  | fuel + 1, c :: cs =>
    if c = '%' then
      match doPrintf fuel (directive cs).2 with
      | some out => some ((directive cs).1 ++ out)
      | none => none
    else
      match doPrintf fuel cs with
      | some out => some (c :: out)
      | none => none

/-- Go `fmt.Sprintf(format)` with no operand, which is also the text of the error
`fmt.Errorf(format)`.  The fuel is enough (`fmt.doPrintf_total`). -/
def Sprintf (format : String) : String :=
  String.mk ((doPrintf format.length format.toList).getD [])

end fmt

/-- Go `err.Error()`: the text of an error; `ext` gives the text of the errors made
outside `client.go`.  A wrapping `%s` inserts the text of the wrapped error. -/
def Error.text (ext : Nat → String) : Error → String
  | .emptyServerAddress => "provided empty server address"
  | .emptyAuthToken => "provided empty auth token"
  | .tunnelsNil => "tunnels maping is nil"
  | .alreadyConnected => "already connected"
  | .failedToConnect err => "failed to connect to server: " ++ err.text ext
  | .backoffLimit err => "backoff limit exeded: " ++ err.text ext
  | .connectionCut => "connection is being cut"
  | .header msg => msg
  | .serverError err => "server error: " ++ err.text ext
  | .external code => ext code

def DefaultBackoffInterval : Duration := 500 * Millisecond
/-- The Go constant `1.5`. -/
def DefaultBackoffMultiplier : ℚ := 3 / 2
def DefaultBackoffMaxInterval : Duration := 60 * Second
def DefaultBackoffMaxTime : Duration := 15 * Minute

/-- Go `http.MethodConnect`. -/
def MethodConnect : String := "CONNECT"
/-- Go `http.StatusBadRequest`. -/
def StatusBadRequest : Nat := 400
/-- Go `http.StatusOK`. -/
def StatusOK : Nat := 200

/-- The argument of `ExpBackoff`, as `NewClient` builds it. -/
structure BackoffConfig where
  Interval : Duration
  Multiplier : ℚ
  MaxInterval : Duration
  MaxTime : Duration
  deriving DecidableEq

/-- A `*log.Entry`: the one given in the configuration, or the entry `NewClient`
makes itself (a new logger at error level). -/
inductive Logger where
  | given (id : Nat)
  | errorLevel
  deriving DecidableEq, Repr

/-- Modelled from the spec: `proto.ControlMessage`, which is declared outside
`client.go`: an `Action` plus addressing metadata (target tunnel identifier,
protocol, forwarded-for address). -/
structure ControlMessage where
  Action : String
  ForwardedHost : String
  ForwardedProto : String
  RemoteAddr : String
  deriving DecidableEq, Repr

/-- A `*http.Request`, as far as `serveHTTP` looks at it. -/
structure Request where
  Method : String
  Header : List (String × String)
  RemoteAddr : String
  deriving DecidableEq, Repr

/-- Go `r.Header.Get(key)`: the value stored under `key`, or `""`. -/
def Request.HeaderGet (r : Request) (key : String) : String :=
  (r.Header.lookup key).getD ""

/-- Declarations of packages `client` and `proto` used by `client.go` and declared
in other files. -/
structure Pkg where
  /-- Go `client.Tunnel` -/
  Tunnel : Type
  /-- Go `proto.Tunnel` -/
  ProtoTunnel : Type
  /-- Go `ProxyFunc` -/
  ProxyFunc : Type
  /-- the state of a value of the interface `Backoff` -/
  Backoff : Type
  MapTunnels : List (String × Tunnel) → List (String × ProtoTunnel)
  CreateProxy : List (String × Tunnel) → Logger → ProxyFunc
  ExpBackoff : BackoffConfig → Backoff
  /-- Go `b.NextBackOff()`: the returned duration and the state afterwards -/
  NextBackOff : Backoff → Duration × Backoff
  /-- Go `b.Reset()` -/
  Reset : Backoff → Backoff
  ActionProxy : String
  HeaderError : String
  /-- Go `proto.ReadControlMessage(r)`: Go's pair `(msg, err)` -/
  ReadControlMessage : Request → Option ControlMessage × Option Error

structure ClientConfig (X : Pkg) where
  ServerAddress : String
  /-- The value `none` is the `nil` map. -/
  Tunnels : Option (List (String × X.Tunnel))
  Logger : Option Nat
  AuthToken : String
  IdName : String

structure clientData (X : Pkg) where
  serverAddr : String
  /-- The value `none` is `nil`: no retry. -/
  backoff : Option X.Backoff
  tunnels : List (String × X.ProtoTunnel)
  proxy : X.ProxyFunc
  logger : Logger
  idName : String
  authToken : String

/-- The `Client`; `connMu` is the atomicity of the functions below, `httpServer`
is the `http2` server that runs `serveHTTP`. -/
structure Client (X : Pkg) where
  config : clientData X
  conn : Option Conn
  serverErr : Option Error
  lastDisconnect : Time
  logger : Logger

/-- Go `newClient(config)`: every field that is not set is Go's zero value. -/
def newClient {X : Pkg} (config : clientData X) : Except Error (Client X) :=
  .ok { config := config, conn := none, serverErr := none, lastDisconnect := 0,
        logger := config.logger }

/-- Go `NewClient(config)` -/
def NewClient (X : Pkg) (config : ClientConfig X) : Except Error (Client X) :=
  if config.ServerAddress = "" then .error .emptyServerAddress
  else if config.AuthToken = "" then .error .emptyAuthToken
  else
    let logger : Logger :=
      match config.Logger with
      | some l => .given l
      | none => .errorLevel
    match config.Tunnels with
    | none => .error .tunnelsNil
    | some tunnels =>
      newClient
        { serverAddr := config.ServerAddress
          authToken := config.AuthToken
          logger := logger
          tunnels := X.MapTunnels tunnels
          proxy := X.CreateProxy tunnels logger
          backoff := some (X.ExpBackoff
            { Interval := DefaultBackoffInterval
              Multiplier := DefaultBackoffMultiplier
              MaxInterval := DefaultBackoffMaxInterval
              MaxTime := DefaultBackoffMaxTime })
          idName := config.IdName }

/-! ### Serving requests -/

/-- Go `TunnelExt`, the handshake payload. -/
structure TunnelExt (X : Pkg) where
  IdName : String
  Tunnels : List (String × X.ProtoTunnel)

/-- What a handler does to the response writer and to the proxy function. -/
inductive Out (X : Pkg) where
  /-- Go `http.Error(w, err.Error(), code)` -/
  | httpError (err : Error) (code : Nat)
  /-- Go `c.config.proxy(w, r.Body, msg)` -/
  | proxy (msg : ControlMessage)
  /-- Go `w.Header().Add(key, value)` -/
  | headerAdd (key value : String)
  /-- Go `w.WriteHeader(code)` -/
  | writeHeader (code : Nat)
  /-- Go `w.Write(b)` with `b` the JSON of `te` -/
  | write (te : TunnelExt X)

/-- The end of one call of a handler: the client afterwards, what the handler did
to the response and the proxy, and whether the call ended in a run-time panic
instead of returning. -/
structure Served (X : Pkg) where
  c : Client X
  out : List (Out X)
  panicked : Bool

/-- Go `http.Error(w, err.Error(), code)` for a Go variable `err`.  When `err` is `nil`
the method call `err.Error()` is a nil dereference: the handler panics before
`http.Error` is entered, so nothing is written. -/
def Client.httpError {X : Pkg} (c : Client X) (err : Option Error) (code : Nat) : Served X :=
  match err with
  | some e => { c := c, out := [.httpError e code], panicked := false }
  | none => { c := c, out := [], panicked := true }

/-- Go `Client.handleHandshakeError` -/
def Client.handleHandshakeError {X : Pkg} (c : Client X) (r : Request) : Served X :=
  let err := Error.header (fmt.Sprintf (r.HeaderGet X.HeaderError))
  { c := { c with serverErr := some (.serverError err) }, out := [], panicked := false }

/-- Go `Client.handleHandshake` (marshalling a `TunnelExt` does not fail). -/
def Client.handleHandshake {X : Pkg} (c : Client X) (_r : Request) : Served X :=
  let te : TunnelExt X := { IdName := c.config.idName, Tunnels := c.config.tunnels }
  { c := c
    out := [.headerAdd "X-Auth-Header" c.config.authToken, .writeHeader StatusOK, .write te]
    panicked := false }

/-- Go `Client.serveHTTP` -/
def Client.serveHTTP {X : Pkg} (c : Client X) (r : Request) : Served X :=
  if r.Method = MethodConnect then
    if r.HeaderGet X.HeaderError ≠ "" then c.handleHandshakeError r
    else c.handleHandshake r
  else
    let (msg, err) := X.ReadControlMessage r
    if err ≠ none then
      c.httpError err StatusBadRequest
    else
      match msg with
      | none => { c := c, out := [], panicked := true }
      | some msg =>
        if msg.Action = X.ActionProxy then
          { c := c, out := [.proxy msg], panicked := false }
        else
          c.httpError err StatusBadRequest

/-! ### Connecting -/

/-- What the network answers to one connection attempt. -/
structure DialOutcome where
  /-- Go `d.Dial(network, addr)` -/
  dial : Except Error Conn
  /-- Go `tunnel.KeepAlive(conn)`, called when `dial` gave a connection -/
  keepAlive : Option Error
  deriving Repr

/-- The outside world of one client. -/
structure Env where
  /-- the answer to the `k`-th connection attempt, counted from 0 -/
  dialOutcome : Nat → DialOutcome
  /-- the requests that arrive while the `i`-th served connection is open -/
  requests : Nat → List Request
  /-- Go `time.Now()` when the `i`-th served connection has ended -/
  now : Nat → Time

/-- The client's calls to the outside world. -/
inductive Event where
  /-- Go `d.Dial`, connection attempt number `k` -/
  | dial (k : Nat)
  /-- Go `conn.Close()` -/
  | connClose (conn : Conn)
  /-- Go `b.NextBackOff()` returning `d` -/
  | nextBackOff (d : Duration)
  /-- Go `b.Reset()` -/
  | reset
  /-- Go `time.Sleep(d)` -/
  | sleep (d : Duration)
  /-- Go `c.httpServer.ServeConn(conn, ...)` -/
  | serveConn (conn : Conn)
  deriving DecidableEq, Repr

def Event.isDial : Event → Bool
  | .dial _ => true
  | _ => false

def Event.isNextBackOff : Event → Bool
  | .nextBackOff _ => true
  | _ => false

def Event.isServeConn : Event → Bool
  | .serveConn _ => true
  | _ => false

/-- A client together with its position in the outside world. -/
structure Run (X : Pkg) where
  c : Client X
  /-- connection attempts made so far -/
  dials : Nat
  /-- connections served so far -/
  serves : Nat
  trace : List Event

/-- The closure `doDial` inside `Client.dial`. -/
def Client.doDial {X : Pkg} (env : Env) (s : Run X) : Except Error Conn × Run X :=
  let o := env.dialOutcome s.dials
  let s1 : Run X := { s with dials := s.dials + 1, trace := s.trace ++ [.dial s.dials] }
  match o.dial with
  | .error err => (.error err, s1)
  | .ok conn =>
    match o.keepAlive with
    | none => (.ok conn, s1)
    | some err => (.error err, { s1 with trace := s1.trace ++ [.connClose conn] })

/-- Store the state of the backoff policy in the client. -/
def Run.setBackoff {X : Pkg} (s : Run X) (b : X.Backoff) : Run X :=
  { s with c := { s.c with config := { s.c.config with backoff := some b } } }

/-- The `for` loop of `Client.dial`, with the policy in state `b`. -/
def Client.dialLoop {X : Pkg} (env : Env) : Nat → X.Backoff → Run X →
    Option (Except Error Conn × Run X)
  | 0, _, _ => none
  | fuel + 1, b, s =>
    let (r, s1) := Client.doDial env s
    match r with
    | .ok conn =>
      some (.ok conn, { s1.setBackoff (X.Reset b) with trace := s1.trace ++ [.reset] })
    | .error err =>
      let (d, b1) := X.NextBackOff b
      let s2 : Run X := { s1.setBackoff b1 with trace := s1.trace ++ [.nextBackOff d] }
      if d < 0 then
        some (.error (.backoffLimit err), s2)
      else
        Client.dialLoop env fuel b1 { s2 with trace := s2.trace ++ [.sleep d] }

/-- Go `Client.dial` -/
def Client.dial {X : Pkg} (env : Env) (fuel : Nat) (s : Run X) :
    Option (Except Error Conn × Run X) :=
  match s.c.config.backoff with
  | none => some (Client.doDial env s)
  | some b => Client.dialLoop env fuel b s

/-- Go `Client.connect` -/
def Client.connect {X : Pkg} (env : Env) (fuel : Nat) (s : Run X) :
    Option (Except Error Conn × Run X) :=
  if s.c.conn ≠ none then
    some (.error .alreadyConnected, s)
  else
    match Client.dial env fuel s with
    | none => none
    | some (.error err, s1) => some (.error (.failedToConnect err), s1)
    | some (.ok conn, s1) => some (.ok conn, { s1 with c := { s1.c with conn := some conn } })

/-- Go `c.httpServer.ServeConn(conn, ...)`: the requests that arrive on the connection
are handled by `serveHTTP`, here one after the other; the call returns when the
connection has ended.  The `http2` server recovers a handler that panics, so the
client keeps the state that handler left. -/
def Client.ServeConn {X : Pkg} (env : Env) (s : Run X) (conn : Conn) : Run X :=
  { s with
    c := (env.requests s.serves).foldl (fun c r => (c.serveHTTP r).c) s.c
    serves := s.serves + 1
    trace := s.trace ++ [.serveConn conn] }

/-- Lines 137-149 of `Start`, with `now := time.Now()`: the error `err` that decides
how `Start` goes on, and the client after the assignments. -/
def Client.disconnected {X : Pkg} (c : Client X) (now : Time) : Option Error × Client X :=
  let err := c.serverErr
  let err :=
    if err = none ∧ (Time.Sub now c.lastDisconnect).Seconds < 5 then some Error.connectionCut
    else err
  (err, { c with conn := none, serverErr := none, lastDisconnect := now })

/-- Go `Client.Start`: `dialFuel` bounds each `dial`, the other number bounds the
rounds of the outer `for`.  `Start` only ever returns an error. -/
def Client.Start {X : Pkg} (env : Env) (dialFuel : Nat) : Nat → Run X → Option (Error × Run X)
  | 0, _ => none
  | fuel + 1, s =>
    match Client.connect env dialFuel s with
    | none => none
    | some (.error err, s1) => some (err, s1)
    | some (.ok conn, s1) =>
      let s2 := Client.ServeConn env s1 conn
      let now := env.now s1.serves
      let (err, c3) := s2.c.disconnected now
      let s3 : Run X := { s2 with c := c3 }
      match err with
      | some e => some (e, s3)
      | none => Client.Start env dialFuel fuel s3

/-- Go `Client.Stop` -/
def Client.Stop {X : Pkg} (s : Run X) : Run X :=
  match s.c.conn with
  | some conn =>
    { s with c := { s.c with conn := none }, trace := s.trace ++ [.connClose conn] }
  | none => { s with c := { s.c with conn := none } }

/-! ### Vocabulary for statements about `dial` and `Start` -/

/-- The value `doDial` returns when the network answers `o`. -/
def DialOutcome.result (o : DialOutcome) : Except Error Conn :=
  match o.dial with
  | .error err => .error err
  | .ok conn =>
    match o.keepAlive with
    | none => .ok conn
    | some err => .error err

/-- The calls `doDial` makes on attempt `k` when the network answers `o`. -/
def DialOutcome.events (o : DialOutcome) (k : Nat) : List Event :=
  match o.dial with
  | .error _ => [.dial k]
  | .ok conn =>
    match o.keepAlive with
    | none => [.dial k]
    | some _ => [.dial k, .connClose conn]

/-- The state of the policy after `k` calls of `NextBackOff`. -/
def Pkg.backoffAfter (X : Pkg) (b : X.Backoff) : Nat → X.Backoff
  | 0 => b
  | k + 1 => X.backoffAfter (X.NextBackOff b).2 k

/-- The duration returned by call number `k` (from 0) of `NextBackOff`. -/
def Pkg.delay (X : Pkg) (b : X.Backoff) (k : Nat) : Duration :=
  (X.NextBackOff (X.backoffAfter b k)).1

/-- The calls made by `n` failed attempts, the first being attempt `k`, each
followed by `NextBackOff` and the sleep it asks for. -/
def retryTrace (X : Pkg) (env : Env) : Nat → Nat → X.Backoff → List Event
  | 0, _, _ => []
  | n + 1, k, b =>
    (env.dialOutcome k).events k
      ++ [.nextBackOff (X.NextBackOff b).1, .sleep (X.NextBackOff b).1]
      ++ retryTrace X env n (k + 1) (X.NextBackOff b).2

/-- The run after those `n` failed attempts. -/
def Run.retried {X : Pkg} (env : Env) (s : Run X) (b : X.Backoff) (n : Nat) : Run X :=
  { s.setBackoff (X.backoffAfter b n) with
    dials := s.dials + n
    trace := s.trace ++ retryTrace X env n s.dials b }

/-- Starting at attempt `k` with the policy in state `b`: the attempts `k .. k+n`
fail, `NextBackOff` answers the first `n` of them with a delay that is not
negative, and answers the last with a negative one. -/
def GivesUpAt (X : Pkg) (env : Env) (k : Nat) (b : X.Backoff) (n : Nat) : Prop :=
  (∀ i, i ≤ n → ∃ e, (env.dialOutcome (k + i)).result = .error e) ∧
  (∀ i, i < n → 0 ≤ X.delay b i) ∧
  X.delay b n < 0

/-- The run after lines 146-148 of `Start`, executed at time `now`. -/
def Run.cleared {X : Pkg} (s : Run X) (now : Time) : Run X :=
  { s with c := { s.c with conn := none, serverErr := none, lastDisconnect := now } }

/-! ### Concrete data for the client -/

/-- A package whose `Backoff` is the mock of `mocks/http-tunnel/client/Backoff.go`:
its state counts the calls of `NextBackOff` and of `Reset`, and the `k`-th call of
`NextBackOff` returns `script k`.  Control messages are read from the headers
`"X-Action"` and `"X-Forwarded-Host"`. -/
def mockPkg (script : Nat → Duration) : Pkg :=
  { Tunnel := String
    ProtoTunnel := String
    ProxyFunc := Unit
    Backoff := Nat × Nat
    MapTunnels := fun ts => ts
    CreateProxy := fun _ _ => ()
    ExpBackoff := fun _ => (0, 0)
    NextBackOff := fun b => (script b.1, (b.1 + 1, b.2))
    Reset := fun b => (b.1, b.2 + 1)
    ActionProxy := "proxy"
    HeaderError := "X-Error"
    ReadControlMessage := fun r =>
      if r.HeaderGet "X-Action" = "" then (none, some (.external 1))
      else (some { Action := r.HeaderGet "X-Action"
                   ForwardedHost := r.HeaderGet "X-Forwarded-Host"
                   ForwardedProto := "http"
                   RemoteAddr := r.RemoteAddr }, none) }

/-- Delays of 500 ms, 750 ms, 1125 ms, then give-up. -/
def script3 : Nat → Duration
  | 0 => 500000000
  | 1 => 750000000
  | 2 => 1125000000
  | _ => -1

/-- A client of `mockPkg script` that is not connected. -/
def client0 (script : Nat → Duration) : Client (mockPkg script) :=
  { config :=
      { serverAddr := "localhost:9000", backoff := some (0, 0), tunnels := [("web", "tcp")],
        proxy := (), logger := .errorLevel, idName := "node-a", authToken := "tok" }
    conn := none, serverErr := none, lastDisconnect := 0, logger := .errorLevel }

def run0 (script : Nat → Duration) : Run (mockPkg script) :=
  { c := client0 script, dials := 0, serves := 0, trace := [] }

/-- A request with an action the client does not know. -/
def reqUnknown : Request :=
  { Method := "POST", Header := [("X-Action", "restart"), ("X-Forwarded-Host", "web")],
    RemoteAddr := "10.0.0.1:4000" }

/-- The server's report of a failed handshake. -/
def reqAuthFailed : Request :=
  { Method := "CONNECT", Header := [("X-Error", "auth token mismatch")],
    RemoteAddr := "10.0.0.1:4000" }

/-- Three connection attempts are refused, the fourth gives connection 5. -/
def envThreeFailures : Env :=
  { dialOutcome := fun k =>
      if k < 3 then { dial := .error (.external 111), keepAlive := none }
      else { dial := .ok 5, keepAlive := none }
    requests := fun _ => []
    now := fun i => 64000000000000000000 + 10000000000 * i }

/-- Every connection attempt is refused. -/
def envUnreachable : Env :=
  { dialOutcome := fun _ => { dial := .error (.external 111), keepAlive := none }
    requests := fun _ => []
    now := fun i => 64000000000000000000 + 10000000000 * i }

/-- The first attempt gives connection 5, on which the server reports a failed
handshake. -/
def envAuthFailed : Env :=
  { dialOutcome := fun _ => { dial := .ok 5, keepAlive := none }
    requests := fun _ => [reqAuthFailed]
    now := fun i => 64000000000000000000 + 10000000000 * i }

/-- The server's report of a failed handshake, with a percent sign in the message. -/
def reqHalfOff : Request :=
  { Method := "CONNECT", Header := [("X-Error", "50% off")], RemoteAddr := "10.0.0.1:4000" }

/-- The first attempt gives connection 5, on which the server reports `"50% off"`. -/
def envHalfOff : Env :=
  { dialOutcome := fun _ => { dial := .ok 5, keepAlive := none }
    requests := fun _ => [reqHalfOff]
    now := fun i => 64000000000000000000 + 10000000000 * i }

/-- The run `run0 script3` after a first attempt that gave connection 5. -/
def runConnected : Run (mockPkg script3) :=
  { c := { client0 script3 with
           config := { (client0 script3).config with backoff := some (0, 1) }
           conn := some 5 }
    dials := 1, serves := 0, trace := [.dial 0, .reset] }

/-! ## Pool: lemmas -/

theorem Time.Sub_add_nat_nonneg (start : Time) (n : Nat) : 0 ≤ Since (start + n) start := by
  unfold Since Time.Sub maxDuration minDuration
  have h : start + (n : Int) - start = n := by ring
  rw [h]
  split_ifs with h1 h2
  · norm_num
  · have hn : (0 : Int) ≤ n := Int.natCast_nonneg n
    have hneg : -(2 ^ 63 : Int) < 0 := by norm_num
    exact absurd (lt_trans h2 hneg) (not_lt.mpr hn)
  · exact Int.natCast_nonneg n

theorem Time.Sub_add_nat (start : Time) (n : Nat) :
    Time.Sub (start + n) start = min (n : Int) maxDuration := by
  unfold Time.Sub
  have h : start + (n : Int) - start = n := by ring
  rw [h]
  have hn : (0 : Int) ≤ n := Int.natCast_nonneg n
  have hmin : minDuration < 0 := by decide
  split_ifs with h1 h2
  · exact (min_eq_right (le_of_lt h1)).symm
  · exact absurd (lt_trans h2 hmin) (not_lt.mpr hn)
  · exact (min_eq_left (not_lt.mp h1)).symm

theorem connPool.find_none_of_forall (p : connPool) (c : ClientConn)
    (h : ∀ addr cp, p.conns.lookup addr = some cp → cp.clientConn ≠ c) :
    p.conns.entries.find? (fun e => e.2.clientConn == c) = none := by
  rw [List.find?_eq_none]
  intro e he
  have hl : p.conns.lookup e.1 = some e.2 := AList.mem_lookup_iff.mpr he
  simpa using h e.1 e.2 hl

theorem connPool.find_some_of_exists (p : connPool) (c : ClientConn)
    (h : ∃ addr cp, p.conns.lookup addr = some cp ∧ cp.clientConn = c) :
    ∃ e, p.conns.entries.find? (fun e => e.2.clientConn == c) = some e ∧
      p.conns.lookup e.1 = some e.2 ∧ e.2.clientConn = c := by
  obtain ⟨addr, cp, hl, hc⟩ := h
  have hmem : (⟨addr, cp⟩ : Sigma (fun _ : String => connPair)) ∈ p.conns.entries :=
    AList.mem_lookup_iff.mp hl
  cases hf : p.conns.entries.find? (fun e => e.2.clientConn == c) with
  | none =>
    rw [List.find?_eq_none] at hf
    have := hf _ hmem
    simp [hc] at this
  | some e =>
    refine ⟨e, rfl, ?_, ?_⟩
    · exact AList.mem_lookup_iff.mpr (List.mem_of_find?_eq_some hf)
    · simpa using List.find?_some hf

/-! ## Pool: the claims -/

/-- C1 (as amended).  When the pool has no entry for the identity, `AddConn` closes
nothing and calls no callback; if `NewClientConn` yields a handle `c` it returns no
error and registers `(conn, c)` under the identity, leaving every other identity as
it was, and a later `GetClientConn` yields `c` when `c` can take a new request and
the not-connected error otherwise; if `NewClientConn` fails, `AddConn` returns that
error and the pool is unchanged. -/
theorem AddConn_fresh (h h' : Http2) (p : connPool) (conn : Conn) (identity : String)
    (hfresh : p.conns.lookup identity = none) :
    (∀ c, h.NewClientConn conn = .ok c →
      p.AddConn h conn identity
          = (none, { p with conns := p.conns.insert identity ⟨conn, c⟩ }, []) ∧
        (p.AddConn h conn identity).2.1.conns.lookup identity = some ⟨conn, c⟩ ∧
        (∀ k, k ≠ identity →
          (p.AddConn h conn identity).2.1.conns.lookup k = p.conns.lookup k) ∧
        (p.AddConn h conn identity).2.1.GetClientConn h' identity
          = if h'.CanTakeNewRequest c then .ok c else .error .errClientNotConnected) ∧
    (∀ e, h.NewClientConn conn = .error e →
      p.AddConn h conn identity = (some (.http2 e), p, [])) := by
  constructor
  · intro c hc
    have hres : p.AddConn h conn identity
        = (none, { p with conns := p.conns.insert identity ⟨conn, c⟩ }, []) := by
      simp [connPool.AddConn, connPool.register, hfresh, hc]
    refine ⟨hres, ?_, ?_, ?_⟩
    · rw [hres]; exact AList.lookup_insert _
    · intro k hk
      rw [hres]; exact AList.lookup_insert_ne hk
    · rw [hres]
      simp [connPool.GetClientConn, AList.lookup_insert]
  · intro e he
    simp [connPool.AddConn, connPool.register, hfresh, he]

/-- C1, instance: a fresh identity in the empty pool, with a working library. -/
theorem AddConn_fresh_witness :
    (newConnPool true).conns.lookup "node-a" = none ∧
    (newConnPool true).AddConn h2Healthy 1 "node-a" = (none, poolA, []) ∧
    poolA.GetClientConn h2Healthy "node-a" = .ok 101 :=
  ⟨rfl,
   ((AddConn_fresh h2Healthy h2Healthy (newConnPool true) 1 "node-a" rfl).1 101 rfl).1,
   rfl⟩

/-- C1, as stated, fails: for a fresh identity `AddConn` returns an error when
`NewClientConn` fails (first input), and after a successful `AddConn` the lookup
returns the not-connected error when the handle cannot take a request (second
input). -/
theorem AddConn_fresh_counterexample :
    (newConnPool true).conns.lookup "node-a" = none ∧
    ((newConnPool true).AddConn h2Broken 1 "node-a").1 = some (.http2 7) ∧
    ((newConnPool true).AddConn h2Healthy 1 "node-a").1 = none ∧
    ((newConnPool true).AddConn h2Healthy 1 "node-a").2.1.GetClientConn h2Stale "node-a"
      = .error .errClientNotConnected :=
  ⟨rfl, rfl, rfl, rfl⟩

/-- C2.  When an entry exists for the identity and its liveness probe succeeds,
`AddConn` returns the already-connected error, the pool is exactly as it was (the
entry is still registered, the new connection is not), and there is no effect at
all: nothing is closed and the release callback is not called. -/
theorem AddConn_alive (h : Http2) (p : connPool) (newConn : Conn) (identity : String)
    (cp : connPair) (hentry : p.conns.lookup identity = some cp)
    (hprobe : p.ping h cp = none) :
    p.AddConn h newConn identity = (some .errClientAlreadyConnected, p, []) ∧
    (p.AddConn h newConn identity).2.1.conns.lookup identity = some cp ∧
    Effect.connClose cp.conn ∉ (p.AddConn h newConn identity).2.2 ∧
    Effect.connClose newConn ∉ (p.AddConn h newConn identity).2.2 ∧
    (∀ a, Effect.free a ∉ (p.AddConn h newConn identity).2.2) := by
  have hres : p.AddConn h newConn identity = (some .errClientAlreadyConnected, p, []) := by
    simp [connPool.AddConn, hentry, hprobe]
  rw [hres]
  simp [hentry]

/-- C2, instance: `"node-a"` is registered and answers the ping. -/
theorem AddConn_alive_witness :
    poolA.AddConn h2Healthy 2 "node-a" = (some .errClientAlreadyConnected, poolA, []) :=
  (AddConn_alive h2Healthy poolA 2 "node-a" ⟨1, 101⟩ rfl rfl).1

/-- C3 (as amended).  When an entry exists for the identity and its liveness probe
fails, `AddConn` closes the old transport, then calls the release callback for the
identity when one is configured, and has no other effect.  If `NewClientConn` yields
a handle `c`, `AddConn` returns no error, the identity maps to `(newConn, c)` and
every other identity is as before; if `NewClientConn` fails, `AddConn` returns that
error, the identity has no entry any more and every other identity is as before. -/
theorem AddConn_dead (h : Http2) (p : connPool) (newConn : Conn) (identity : String)
    (cp : connPair) (hentry : p.conns.lookup identity = some cp)
    (hprobe : p.ping h cp ≠ none) :
    (p.AddConn h newConn identity).2.2
      = Effect.connClose cp.conn :: (if p.free then [Effect.free identity] else []) ∧
    (p.AddConn h newConn identity).2.1.free = p.free ∧
    (∀ k, k ≠ identity →
      (p.AddConn h newConn identity).2.1.conns.lookup k = p.conns.lookup k) ∧
    (∀ c, h.NewClientConn newConn = .ok c →
      (p.AddConn h newConn identity).1 = none ∧
      (p.AddConn h newConn identity).2.1.conns.lookup identity = some ⟨newConn, c⟩) ∧
    (∀ e, h.NewClientConn newConn = .error e →
      (p.AddConn h newConn identity).1 = some (.http2 e) ∧
      (p.AddConn h newConn identity).2.1.conns.lookup identity = none) := by
  obtain ⟨pe, hpe⟩ := Option.ne_none_iff_exists'.mp hprobe
  cases hn : h.NewClientConn newConn with
  | error e =>
    have hres : p.AddConn h newConn identity
        = (some (.http2 e), { p with conns := p.conns.erase identity },
            Effect.connClose cp.conn :: (if p.free then [Effect.free identity] else [])) := by
      simp [connPool.AddConn, connPool.register, connPool.close, hentry, hpe, hn]
    rw [hres]
    refine ⟨rfl, rfl, ?_, ?_, ?_⟩
    · intro k hk
      exact AList.lookup_erase_ne hk
    · intro c hc; cases hc
    · intro e' he'
      cases he'
      exact ⟨rfl, AList.lookup_erase _ _⟩
  | ok c =>
    have hres : p.AddConn h newConn identity
        = (none, { p with conns := (p.conns.erase identity).insert identity ⟨newConn, c⟩ },
            Effect.connClose cp.conn :: (if p.free then [Effect.free identity] else [])) := by
      simp [connPool.AddConn, connPool.register, connPool.close, hentry, hpe, hn]
    rw [hres]
    refine ⟨rfl, rfl, ?_, ?_, ?_⟩
    · intro k hk
      show AList.lookup k (AList.insert identity _ (AList.erase identity p.conns)) = _
      rw [AList.lookup_insert_ne hk, AList.lookup_erase_ne hk]
    · intro c' hc'
      cases hc'
      exact ⟨rfl, AList.lookup_insert _⟩
    · intro e he; cases he

/-- C3, instance: `"node-a"` is registered, its ping fails, wrapping works. -/
theorem AddConn_dead_witness :
    poolAB.conns.lookup "node-a" = some ⟨1, 101⟩ ∧
    (poolAB.AddConn h2Stale 3 "node-a").2.2 = [.connClose 1, .free "node-a"] ∧
    (poolAB.AddConn h2Stale 3 "node-a").1 = none ∧
    (poolAB.AddConn h2Stale 3 "node-a").2.1.conns.lookup "node-a" = some ⟨3, 103⟩ :=
  ⟨rfl,
   (AddConn_dead h2Stale poolAB 3 "node-a" ⟨1, 101⟩ rfl (by decide)).1,
   ((AddConn_dead h2Stale poolAB 3 "node-a" ⟨1, 101⟩ rfl (by decide)).2.2.2.1 103 rfl).1,
   ((AddConn_dead h2Stale poolAB 3 "node-a" ⟨1, 101⟩ rfl (by decide)).2.2.2.1 103 rfl).2⟩

/-- C3, as stated, fails: `"node-a"` is registered and its probe fails, yet `AddConn`
returns an error and the identity maps to no pair afterwards, because
`NewClientConn` failed after the old entry had been evicted (first input); and in
a pool built with a `nil` callback the entry is replaced with no release callback
invoked (second input). -/
theorem AddConn_dead_counterexample :
    poolA.conns.lookup "node-a" = some ⟨1, 101⟩ ∧
    poolA.ping h2Broken ⟨1, 101⟩ = some (.http2 9) ∧
    (poolA.AddConn h2Broken 2 "node-a").1 = some (.http2 7) ∧
    (poolA.AddConn h2Broken 2 "node-a").2.1.conns.lookup "node-a" = none ∧
    poolANoFree.conns.lookup "node-a" = some ⟨1, 101⟩ ∧
    poolANoFree.ping h2Stale ⟨1, 101⟩ = some (.http2 9) ∧
    (poolANoFree.AddConn h2Stale 2 "node-a").1 = none ∧
    (poolANoFree.AddConn h2Stale 2 "node-a").2.2 = [.connClose 1] :=
  ⟨rfl, rfl, rfl, rfl, rfl, rfl, rfl, rfl⟩

/-- C4 (as amended).  If no registered pair has handle `c`, `MarkDead c` changes
nothing and has no effect.  If some registered pair has handle `c`, then for one
such entry `addr ↦ cp`: the entry is removed, every other entry is unchanged, and
the effects are exactly: `cp.conn` is closed and then, when a release callback is
configured, it is called once with `addr`; with no callback configured nothing is
called. -/
theorem MarkDead_spec (p : connPool) (c : ClientConn) :
    ((∀ addr cp, p.conns.lookup addr = some cp → cp.clientConn ≠ c) →
      p.MarkDead c = (p, [])) ∧
    ((∃ addr cp, p.conns.lookup addr = some cp ∧ cp.clientConn = c) →
      ∃ addr cp, p.conns.lookup addr = some cp ∧ cp.clientConn = c ∧
        (p.MarkDead c).1 = { p with conns := p.conns.erase addr } ∧
        (p.MarkDead c).1.conns.lookup addr = none ∧
        (∀ k, k ≠ addr → (p.MarkDead c).1.conns.lookup k = p.conns.lookup k) ∧
        (p.MarkDead c).2
          = Effect.connClose cp.conn :: (if p.free then [Effect.free addr] else []) ∧
        (p.free = true → (p.MarkDead c).2.count (Effect.free addr) = 1 ∧
          ∀ a, Effect.free a ∈ (p.MarkDead c).2 → a = addr) ∧
        (p.free = false → ∀ a, Effect.free a ∉ (p.MarkDead c).2)) := by
  constructor
  · intro hno
    simp [connPool.MarkDead, connPool.find_none_of_forall p c hno]
  · intro hex
    obtain ⟨e, hfind, hl, hc⟩ := connPool.find_some_of_exists p c hex
    have hres : p.MarkDead c = ({ p with conns := p.conns.erase e.1 },
        Effect.connClose e.2.conn :: (if p.free then [Effect.free e.1] else [])) := by
      simp [connPool.MarkDead, connPool.close, hfind]
    refine ⟨e.1, e.2, hl, hc, ?_⟩
    rw [hres]
    refine ⟨rfl, AList.lookup_erase _ _, ?_, rfl, ?_, ?_⟩
    · intro k hk
      exact AList.lookup_erase_ne hk
    · intro hf
      simp [hf]
    · intro hf
      simp [hf]

/-- C4, as stated, fails: in a pool built with a `nil` callback `MarkDead` on a
registered handle removes the entry and closes its transport, and no release
callback is invoked. -/
theorem MarkDead_counterexample :
    poolANoFree.conns.lookup "node-a" = some ⟨1, 101⟩ ∧
    (poolANoFree.MarkDead 101).1.conns.lookup "node-a" = none ∧
    (poolANoFree.MarkDead 101).2 = [.connClose 1] ∧
    (poolANoFree.MarkDead 101).2.count (.free "node-a") = 0 :=
  ⟨rfl, rfl, rfl, rfl⟩

/-- C5.  `Ping` never changes the pool and has no effect (nothing is closed, no
callback), whatever the probe answers.  It returns the not-connected error exactly
when the identity has no entry, and then the duration is `0`.  When the identity
maps to `cp` it returns the error of the library's ping on the handle of `cp` (no
error exactly when that ping succeeds, the library's error code otherwise), with
the time that ping took: the clock difference `time.Since(start)`, which is the
elapsed time capped at the largest `Duration`, and is not negative. -/
theorem Ping_spec (h : Http2) (p : connPool) (identity : String) (start : Time) :
    (p.Ping h identity start).2 = (p, []) ∧
    ((p.Ping h identity start).1.2 = some .errClientNotConnected
      ↔ p.conns.lookup identity = none) ∧
    (p.conns.lookup identity = none → (p.Ping h identity start).1.1 = 0) ∧
    (∀ cp, p.conns.lookup identity = some cp →
      (p.Ping h identity start).1.2 = p.ping h cp ∧
      0 ≤ (p.Ping h identity start).1.1 ∧
      (p.Ping h identity start).1.2 = (h.Ping cp.clientConn).map PoolError.http2 ∧
      ((p.Ping h identity start).1.2 = none ↔ h.Ping cp.clientConn = none) ∧
      (∀ code, h.Ping cp.clientConn = some code →
        (p.Ping h identity start).1.2 = some (.http2 code)) ∧
      (p.Ping h identity start).1.1
        = Time.Sub (start + h.pingElapsed cp.clientConn) start ∧
      (p.Ping h identity start).1.1 = min (h.pingElapsed cp.clientConn : Int) maxDuration) := by
  cases hl : p.conns.lookup identity with
  | none =>
    simp [connPool.Ping, hl]
  | some cp =>
    refine ⟨?_, ?_, ?_, ?_⟩
    · simp [connPool.Ping, hl]
    · simp only [connPool.Ping, hl, connPool.ping]
      cases h.Ping cp.clientConn <;> simp
    · intro hn; cases hn
    · intro cp' hcp'
      cases hcp'
      have herr : (p.Ping h identity start).1.2 = (h.Ping cp.clientConn).map PoolError.http2 := by
        simp [connPool.Ping, hl, connPool.ping]
      have hdur : (p.Ping h identity start).1.1
          = Time.Sub (start + h.pingElapsed cp.clientConn) start := by
        simp [connPool.Ping, hl, Since]
      refine ⟨by simp [connPool.Ping, hl], ?_, herr, ?_, ?_, hdur, ?_⟩
      · simp only [connPool.Ping, hl]
        exact Time.Sub_add_nat_nonneg start _
      · rw [herr]
        cases h.Ping cp.clientConn <;> simp
      · intro code hcode
        rw [herr, hcode]
        rfl
      · rw [hdur]
        exact Time.Sub_add_nat start _

/-- C5, instances: a healthy entry (250 ns, no error), an entry whose ping fails
with code 9 after 10 ns, and an absent identity. -/
theorem Ping_spec_witness :
    poolA.Ping h2Healthy "node-a" 1000 = ((250, none), poolA, []) ∧
    poolA.Ping h2Broken "node-a" 1000 = ((10, some (.http2 9)), poolA, []) ∧
    poolA.Ping h2Healthy "node-z" 1000 = ((0, some .errClientNotConnected), poolA, []) ∧
    (poolA.Ping h2Broken "node-a" 1000).2 = (poolA, []) ∧
    (poolA.Ping h2Broken "node-a" 1000).1.2 = some (.http2 9) :=
  ⟨rfl, rfl, rfl, (Ping_spec h2Broken poolA "node-a" 1000).1,
   ((Ping_spec h2Broken poolA "node-a" 1000).2.2.2 ⟨1, 101⟩ rfl).2.2.2.2.1 9 rfl⟩

/-! ## Client: lemmas -/

namespace fmt

theorem parsenum_length : ∀ (cs : List Char) (num : Nat) (isnum b : Bool) (r : List Char),
    parsenum num isnum cs = some (b, r) → r.length ≤ cs.length := by
  intro cs
  induction cs with
  | nil =>
    intro num isnum b r h
    simp only [parsenum, Option.some.injEq, Prod.mk.injEq] at h
    rw [← h.2]
  | cons c cs ih =>
    intro num isnum b r h
    rw [parsenum] at h
    split_ifs at h with h1 h2
    · have := ih _ _ _ _ h
      exact Nat.le_succ_of_le this
    · simp only [Option.some.injEq, Prod.mk.injEq] at h
      rw [← h.2]

theorem splitBracket_length : ∀ (cs ds after : List Char),
    splitBracket cs = some (ds, after) → after.length ≤ cs.length := by
  intro cs
  induction cs with
  | nil => intro ds after h; simp [splitBracket] at h
  | cons c cs ih =>
    intro ds after h
    rw [splitBracket] at h
    split_ifs at h with h1
    · simp only [Option.some.injEq, Prod.mk.injEq] at h
      rw [← h.2]
      exact Nat.le_succ _
    · cases hs : splitBracket cs with
      | none => simp [hs] at h
      | some p =>
        obtain ⟨ds0, after0⟩ := p
        simp only [hs, Option.some.injEq, Prod.mk.injEq] at h
        rw [← h.2]
        exact Nat.le_succ_of_le (ih _ _ hs)

theorem parseArgNumber_length (rest : List Char) :
    (parseArgNumber rest).2.length ≤ rest.length := by
  unfold parseArgNumber
  split_ifs
  · exact Nat.le_refl _
  · cases hs : splitBracket rest with
    | none => exact Nat.le_refl _
    | some p =>
      obtain ⟨ds, after⟩ := p
      have := splitBracket_length rest ds after hs
      simp only
      split <;> exact this

theorem argNumber_length (good : Bool) (cs : List Char) :
    (argNumber good cs).2.2.length ≤ cs.length := by
  cases cs with
  | nil => simp [argNumber]
  | cons c rest =>
    simp only [argNumber]
    split_ifs
    · exact Nat.le_succ_of_le (parseArgNumber_length rest)
    · exact Nat.le_refl _

theorem skipFlags_length : ∀ cs : List Char, (skipFlags cs).length ≤ cs.length := by
  intro cs
  induction cs with
  | nil => simp [skipFlags]
  | cons c cs ih =>
    unfold skipFlags
    split_ifs
    · exact Nat.le_succ_of_le ih
    · exact Nat.le_refl _

theorem width_length (a g : Bool) (cs : List Char) : (width a g cs).rest.length ≤ cs.length := by
  cases cs with
  | nil => simp [width]
  | cons c r =>
    simp only [width]
    split_ifs
    · exact Nat.le_succ _
    · cases hp : parsenum 0 false (c :: r) with
      | none => simp
      | some p =>
        obtain ⟨b, r1⟩ := p
        exact parsenum_length _ _ _ _ _ hp

theorem precisionNum_length (a g : Bool) (cs : List Char) :
    (precisionNum a g cs).rest.length ≤ cs.length := by
  cases cs with
  | nil => simp [precisionNum]
  | cons c r =>
    simp only [precisionNum]
    split_ifs
    · exact Nat.le_succ _
    · cases hp : parsenum 0 false (c :: r) with
      | none => simp
      | some p =>
        obtain ⟨b, r1⟩ := p
        exact parsenum_length _ _ _ _ _ hp

theorem precision_length (a g : Bool) (cs : List Char) :
    (precision a g cs).rest.length ≤ cs.length := by
  cases cs with
  | nil => simp [precision]
  | cons c r =>
    simp only [precision]
    split_ifs
    · exact Nat.le_succ_of_le
        (Nat.le_trans (precisionNum_length _ _ _) (argNumber_length _ r))
    · exact Nat.le_refl _

theorem verb_length (g : Bool) (cs : List Char) : (verb g cs).2.length ≤ cs.length := by
  cases cs with
  | nil => simp [verb]
  | cons v r =>
    simp only [verb]
    split_ifs <;> simp

theorem verbIndex_length (a g : Bool) (cs : List Char) :
    (verbIndex a g cs).2.length ≤ cs.length := by
  unfold verbIndex
  split_ifs
  · exact Nat.le_refl _
  · exact argNumber_length g cs

theorem directive_length (cs : List Char) : (directive cs).2.length ≤ cs.length := by
  show (verb _ _).2.length ≤ _
  exact Nat.le_trans (verb_length _ _)
    (Nat.le_trans (verbIndex_length _ _ _)
      (Nat.le_trans (precision_length _ _ _)
        (Nat.le_trans (width_length _ _ _)
          (Nat.le_trans (argNumber_length _ _) (skipFlags_length cs)))))

/-- The loop of `doPrintf` ends within one round for each character. -/
theorem doPrintf_total : ∀ (fuel : Nat) (s : List Char), s.length ≤ fuel →
    ∃ out, doPrintf fuel s = some out := by
  intro fuel
  induction fuel with
  | zero =>
    intro s hs
    cases s with
    | nil => exact ⟨[], rfl⟩
    | cons c cs => simp at hs
  | succ fuel ih =>
    intro s hs
    cases s with
    | nil => exact ⟨[], rfl⟩
    | cons c cs =>
      have hcs : cs.length ≤ fuel := Nat.le_of_succ_le_succ hs
      rw [doPrintf]
      split_ifs
      · obtain ⟨out, ho⟩ := ih (directive cs).2 (Nat.le_trans (directive_length cs) hcs)
        exact ⟨_, by rw [ho]⟩
      · obtain ⟨out, ho⟩ := ih cs hcs
        exact ⟨_, by rw [ho]⟩

theorem doPrintf_no_percent : ∀ (s : List Char) (fuel : Nat), s.length ≤ fuel → '%' ∉ s →
    doPrintf fuel s = some s := by
  intro s
  induction s with
  | nil => intro fuel _ _; cases fuel <;> rfl
  | cons c cs ih =>
    intro fuel hs hp
    cases fuel with
    | zero => simp at hs
    | succ fuel =>
      have hc : c ≠ '%' := fun h => hp (by simp [h])
      have hcs : '%' ∉ cs := fun h => hp (List.mem_cons_of_mem _ h)
      rw [doPrintf, if_neg hc, ih fuel (Nat.le_of_succ_le_succ hs) hcs]

theorem Sprintf_no_percent (format : String) (h : '%' ∉ format.toList) :
    Sprintf format = format := by
  unfold Sprintf
  rw [doPrintf_no_percent format.toList format.length (Nat.le_refl _) h]
  rfl

end fmt


theorem Duration.Seconds_eq (d : Duration) : d.Seconds = (d : ℚ) / 1000000000 := by
  unfold Duration.Seconds
  have h : (Second : Int) * Int.tdiv d Second + Int.tmod d Second = d := Int.tdiv_add_tmod d Second
  have hs : (Second : Int) = 1000000000 := by decide
  rw [hs] at h ⊢
  have hq : ((1000000000 * Int.tdiv d 1000000000 + Int.tmod d 1000000000 : Int) : ℚ) = (d : ℚ) := by
    rw [h]
  push_cast at hq
  rw [← hq]
  field_simp
  ring

theorem Duration.Seconds_lt_five (d : Duration) : d.Seconds < 5 ↔ d < 5 * Second := by
  rw [Duration.Seconds_eq]
  have hs : (Second : Int) = 1000000000 := by decide
  rw [hs, div_lt_iff₀ (by norm_num)]
  constructor
  · intro h
    have : (d : ℚ) < ((5 * 1000000000 : Int) : ℚ) := by push_cast; linarith
    exact_mod_cast this
  · intro h
    have : (d : ℚ) < ((5 * 1000000000 : Int) : ℚ) := by exact_mod_cast h
    push_cast at this; linarith


theorem Client.doDial_eq {X : Pkg} (env : Env) (s : Run X) :
    Client.doDial env s = ((env.dialOutcome s.dials).result,
      { s with dials := s.dials + 1
               trace := s.trace ++ (env.dialOutcome s.dials).events s.dials }) := by
  unfold Client.doDial DialOutcome.result DialOutcome.events
  cases hd : (env.dialOutcome s.dials).dial with
  | error e => simp [hd]
  | ok conn =>
    cases hk : (env.dialOutcome s.dials).keepAlive <;> simp [hd, hk]

theorem DialOutcome.events_counts (o : DialOutcome) (k : Nat) :
    (o.events k).countP Event.isDial = 1 ∧ (o.events k).countP Event.isNextBackOff = 0 ∧
    (o.events k).countP Event.isServeConn = 0 ∧ Event.reset ∉ o.events k := by
  unfold DialOutcome.events
  cases o.dial with
  | error e => simp [Event.isDial, Event.isNextBackOff, Event.isServeConn]
  | ok conn =>
    cases o.keepAlive <;> simp [Event.isDial, Event.isNextBackOff, Event.isServeConn]

theorem retryTrace_counts (X : Pkg) (env : Env) (n : Nat) : ∀ (k : Nat) (b : X.Backoff),
    (retryTrace X env n k b).countP Event.isDial = n ∧
    (retryTrace X env n k b).countP Event.isNextBackOff = n ∧
    (retryTrace X env n k b).countP Event.isServeConn = 0 ∧
    Event.reset ∉ retryTrace X env n k b := by
  induction n with
  | zero => intro k b; simp [retryTrace]
  | succ n ih =>
    intro k b
    obtain ⟨h1, h2, h3, h4⟩ := ih (k + 1) (X.NextBackOff b).2
    obtain ⟨e1, e2, e3, e4⟩ := DialOutcome.events_counts (env.dialOutcome k) k
    refine ⟨?_, ?_, ?_, ?_⟩
    · simp [retryTrace, List.countP_append, h1, e1, Event.isDial]; omega
    · simp [retryTrace, List.countP_append, h2, e2, Event.isNextBackOff]
    · simp [retryTrace, List.countP_append, h3, e3, Event.isServeConn]
    · simp [retryTrace, e4, h4]

theorem Run.setBackoff_self {X : Pkg} (s : Run X) (b : X.Backoff)
    (hb : s.c.config.backoff = some b) : s.setBackoff b = s := by
  obtain ⟨⟨⟨a1, a2, a3, a4, a5, a6, a7⟩, c2, c3, c4, c5⟩, d, sv, t⟩ := s
  simp only [Run.setBackoff] at hb ⊢
  cases hb
  rfl

/-- Failed attempts that are answered by a delay are skipped one by one. -/
theorem Client.dialLoop_skip {X : Pkg} (env : Env) (n : Nat) :
    ∀ (fuel : Nat) (b : X.Backoff) (s : Run X), s.c.config.backoff = some b →
      (∀ i, i < n → ∃ e, (env.dialOutcome (s.dials + i)).result = .error e) →
      (∀ i, i < n → 0 ≤ X.delay b i) →
      Client.dialLoop env (fuel + n) b s
        = Client.dialLoop env fuel (X.backoffAfter b n) (s.retried env b n) := by
  induction n with
  | zero =>
    intro fuel b s hb _ _
    have : s.retried env b 0 = s := by
      simp only [Run.retried, Pkg.backoffAfter, retryTrace, Run.setBackoff_self s b hb]
      simp
    rw [this]
    rfl
  | succ n ih =>
    intro fuel b s hb hfail hdelay
    obtain ⟨e, he⟩ := hfail 0 (Nat.succ_pos n)
    have hd : ¬ (X.NextBackOff b).1 < 0 := not_lt.mpr (hdelay 0 (Nat.succ_pos n))
    have hstep : Client.dialLoop env (fuel + (n + 1)) b s
        = Client.dialLoop env (fuel + n) (X.NextBackOff b).2
            { s.setBackoff (X.NextBackOff b).2 with
              dials := s.dials + 1
              trace := s.trace ++ (env.dialOutcome s.dials).events s.dials
                ++ [.nextBackOff (X.NextBackOff b).1] ++ [.sleep (X.NextBackOff b).1] } := by
      rw [show fuel + (n + 1) = (fuel + n) + 1 from rfl, Client.dialLoop, Client.doDial_eq]
      simp only [Nat.add_zero] at he
      simp only [he, hd, if_false]
      rfl
    rw [hstep, ih]
    · congr 1
      simp only [Run.retried, Run.setBackoff, Pkg.backoffAfter, retryTrace]
      simp [Nat.add_assoc, Nat.add_comm 1 n]
    · rfl
    · intro i hi
      have := hfail (i + 1) (Nat.succ_lt_succ hi)
      simpa [Nat.add_assoc, Nat.add_comm 1 i] using this
    · intro i hi
      exact hdelay (i + 1) (Nat.succ_lt_succ hi)

theorem Pkg.backoffAfter_succ (X : Pkg) (n : Nat) : ∀ b : X.Backoff,
    X.backoffAfter b (n + 1) = (X.NextBackOff (X.backoffAfter b n)).2 := by
  induction n with
  | zero => intro b; rfl
  | succ n ih =>
    intro b
    show X.backoffAfter (X.NextBackOff b).2 (n + 1) = _
    rw [ih]
    rfl

/-- After `n` failed attempts the next one succeeds: `dial` resets the policy and
returns the connection. -/
theorem Client.dialLoop_success {X : Pkg} (env : Env) (n fuel : Nat) (b : X.Backoff)
    (s : Run X) (conn : Conn) (hb : s.c.config.backoff = some b)
    (hfail : ∀ i, i < n → ∃ e, (env.dialOutcome (s.dials + i)).result = .error e)
    (hdelay : ∀ i, i < n → 0 ≤ X.delay b i)
    (hok : (env.dialOutcome (s.dials + n)).result = .ok conn) (hfuel : n < fuel) :
    Client.dialLoop env fuel b s = some (.ok conn,
      { s.setBackoff (X.Reset (X.backoffAfter b n)) with
        dials := s.dials + n + 1
        trace := s.trace ++ retryTrace X env n s.dials b
          ++ (env.dialOutcome (s.dials + n)).events (s.dials + n) ++ [.reset] }) := by
  obtain ⟨f, rfl⟩ : ∃ f, fuel = (f + 1) + n := ⟨fuel - n - 1, by omega⟩
  rw [Client.dialLoop_skip env n (f + 1) b s hb hfail hdelay, Client.dialLoop, Client.doDial_eq]
  have hd : (s.retried env b n).dials = s.dials + n := rfl
  simp only [hd, hok]
  rfl

/-- After `n` failed attempts one more fails and the policy gives up: `dial`
returns the wrapped error of that attempt. -/
theorem Client.dialLoop_giveup {X : Pkg} (env : Env) (n fuel : Nat) (b : X.Backoff)
    (s : Run X) (e : Error) (hb : s.c.config.backoff = some b)
    (hfail : ∀ i, i < n → ∃ e, (env.dialOutcome (s.dials + i)).result = .error e)
    (hdelay : ∀ i, i < n → 0 ≤ X.delay b i)
    (hlast : (env.dialOutcome (s.dials + n)).result = .error e)
    (hneg : X.delay b n < 0) (hfuel : n < fuel) :
    Client.dialLoop env fuel b s = some (.error (.backoffLimit e),
      { s.setBackoff (X.backoffAfter b (n + 1)) with
        dials := s.dials + n + 1
        trace := s.trace ++ retryTrace X env n s.dials b
          ++ (env.dialOutcome (s.dials + n)).events (s.dials + n)
          ++ [.nextBackOff (X.delay b n)] }) := by
  obtain ⟨f, rfl⟩ : ∃ f, fuel = (f + 1) + n := ⟨fuel - n - 1, by omega⟩
  rw [Client.dialLoop_skip env n (f + 1) b s hb hfail hdelay, Client.dialLoop, Client.doDial_eq]
  have hd : (s.retried env b n).dials = s.dials + n := rfl
  have hneg' : (X.NextBackOff (X.backoffAfter b n)).1 < 0 := hneg
  simp only [hd, hlast, hneg', if_true]
  rw [Pkg.backoffAfter_succ]
  rfl

/-- With too little fuel for the failed attempts, the loop does not return. -/
theorem Client.dialLoop_out_of_fuel {X : Pkg} (env : Env) (n : Nat) (b : X.Backoff)
    (s : Run X) (hb : s.c.config.backoff = some b)
    (hfail : ∀ i, i < n → ∃ e, (env.dialOutcome (s.dials + i)).result = .error e)
    (hdelay : ∀ i, i < n → 0 ≤ X.delay b i) :
    Client.dialLoop env n b s = none := by
  have h := Client.dialLoop_skip env n 0 b s hb hfail hdelay
  rw [Nat.zero_add] at h
  rw [h]
  rfl

theorem GivesUpAt.shift {X : Pkg} {env : Env} {k : Nat} {b : X.Backoff} {n : Nat} {e : Error}
    (hfail : (env.dialOutcome k).result = .error e) (hd : 0 ≤ (X.NextBackOff b).1)
    (h : GivesUpAt X env (k + 1) (X.NextBackOff b).2 n) : GivesUpAt X env k b (n + 1) := by
  obtain ⟨h1, h2, h3⟩ := h
  refine ⟨?_, ?_, ?_⟩
  · intro i hi
    cases i with
    | zero => exact ⟨e, hfail⟩
    | succ i =>
      have := h1 i (Nat.le_of_succ_le_succ hi)
      simpa [Nat.add_assoc, Nat.add_comm 1 i] using this
  · intro i hi
    cases i with
    | zero => exact hd
    | succ i => exact h2 i (Nat.lt_of_succ_lt_succ hi)
  · exact h3

/-- The loop returns an error only by giving up. -/
theorem Client.dialLoop_error_only {X : Pkg} (env : Env) (fuel : Nat) :
    ∀ (b : X.Backoff) (s : Run X) (err : Error) (s' : Run X),
      Client.dialLoop env fuel b s = some (.error err, s') →
      ∃ n, GivesUpAt X env s.dials b n := by
  induction fuel with
  | zero => intro b s err s' h; simp [Client.dialLoop] at h
  | succ fuel ih =>
    intro b s err s' h
    rw [Client.dialLoop, Client.doDial_eq] at h
    cases hr : (env.dialOutcome s.dials).result with
    | ok conn => simp [hr] at h
    | error e =>
      simp only [hr] at h
      by_cases hd : (X.NextBackOff b).1 < 0
      · refine ⟨0, ?_, ?_, hd⟩
        · intro i hi
          have : i = 0 := by omega
          subst this
          exact ⟨e, hr⟩
        · intro i hi; omega
      · simp only [hd, if_false] at h
        obtain ⟨n, hn⟩ := ih _ _ _ _ h
        exact ⟨n + 1, GivesUpAt.shift hr (not_lt.mp hd) hn⟩

theorem Client.serveHTTP_frame {X : Pkg} (c : Client X) (r : Request) :
    (c.serveHTTP r).c.lastDisconnect = c.lastDisconnect ∧ (c.serveHTTP r).c.conn = c.conn ∧
    (c.serveHTTP r).c.config = c.config := by
  unfold Client.serveHTTP
  by_cases hm : r.Method = MethodConnect
  · by_cases hh : r.HeaderGet X.HeaderError = "" <;>
      simp [hm, hh, Client.handleHandshakeError, Client.handleHandshake]
  · rcases hrd : X.ReadControlMessage r with ⟨msg, err⟩
    cases err with
    | some e => simp [hm, Client.httpError]
    | none =>
      cases msg with
      | none => simp [hm]
      | some m =>
        by_cases ha : m.Action = X.ActionProxy <;> simp [hm, ha, Client.httpError]

theorem Client.foldl_serveHTTP_frame {X : Pkg} (reqs : List Request) : ∀ c : Client X,
    (reqs.foldl (fun c r => (c.serveHTTP r).c) c).lastDisconnect = c.lastDisconnect ∧
    (reqs.foldl (fun c r => (c.serveHTTP r).c) c).conn = c.conn := by
  induction reqs with
  | nil => intro c; exact ⟨rfl, rfl⟩
  | cons r rs ih =>
    intro c
    obtain ⟨h1, h2⟩ := ih (c.serveHTTP r).c
    obtain ⟨f1, f2, _⟩ := Client.serveHTTP_frame c r
    exact ⟨by simpa [f1] using h1, by simpa [f2] using h2⟩

theorem Client.dialLoop_frame {X : Pkg} (env : Env) (fuel : Nat) :
    ∀ (b : X.Backoff) (s : Run X) (r : Except Error Conn) (s' : Run X),
      Client.dialLoop env fuel b s = some (r, s') →
      s'.c.lastDisconnect = s.c.lastDisconnect ∧ s'.c.serverErr = s.c.serverErr ∧
      s'.c.conn = s.c.conn ∧ s'.serves = s.serves := by
  induction fuel with
  | zero => intro b s r s' h; simp [Client.dialLoop] at h
  | succ fuel ih =>
    intro b s r s' h
    rw [Client.dialLoop, Client.doDial_eq] at h
    cases hr : (env.dialOutcome s.dials).result with
    | ok conn =>
      simp only [hr, Option.some.injEq, Prod.mk.injEq] at h
      obtain ⟨_, rfl⟩ := h
      exact ⟨rfl, rfl, rfl, rfl⟩
    | error e =>
      simp only [hr] at h
      by_cases hd : (X.NextBackOff b).1 < 0
      · simp only [hd, if_true, Option.some.injEq, Prod.mk.injEq] at h
        obtain ⟨_, rfl⟩ := h
        exact ⟨rfl, rfl, rfl, rfl⟩
      · simp only [hd, if_false] at h
        have h2 := ih _ _ _ _ h
        exact h2

theorem Client.connect_frame {X : Pkg} (env : Env) (fuel : Nat) (s s1 : Run X) (conn : Conn)
    (h : Client.connect env fuel s = some (.ok conn, s1)) :
    s1.c.lastDisconnect = s.c.lastDisconnect ∧ s1.c.serverErr = s.c.serverErr ∧
    s1.c.conn = some conn ∧ s1.serves = s.serves := by
  unfold Client.connect at h
  by_cases hc : s.c.conn = none
  · simp only [hc, ne_eq, not_true_eq_false, if_false] at h
    cases hd : Client.dial env fuel s with
    | none => simp [hd] at h
    | some p =>
      obtain ⟨r, s0⟩ := p
      have hframe : s0.c.lastDisconnect = s.c.lastDisconnect ∧ s0.c.serverErr = s.c.serverErr ∧
          s0.c.conn = s.c.conn ∧ s0.serves = s.serves := by
        unfold Client.dial at hd
        cases hb : s.c.config.backoff with
        | none =>
          simp only [hb, Client.doDial_eq, Option.some.injEq, Prod.mk.injEq] at hd
          obtain ⟨_, rfl⟩ := hd
          exact ⟨rfl, rfl, rfl, rfl⟩
        | some b =>
          simp only [hb] at hd
          exact Client.dialLoop_frame env fuel b s r s0 hd
      cases r with
      | error e => simp [hd] at h
      | ok conn0 =>
        simp only [hd, Option.some.injEq, Prod.mk.injEq, Except.ok.injEq] at h
        obtain ⟨rfl, rfl⟩ := h
        exact ⟨hframe.1, hframe.2.1, rfl, hframe.2.2.2⟩
  · simp [hc] at h

/-! ## Client: the claims -/

/-- C6, what the code does.  For a request that is not a CONNECT, whose control
message is read without error and whose action is not `ActionProxy`, `serveHTTP`
does not answer with status 400: the `default` branch evaluates `err.Error()` on
the `nil` error, so the handler panics with nothing written.  The proxy function
is not called and the client is unchanged. -/
theorem serveHTTP_unknown_action_panics {X : Pkg} (c : Client X) (r : Request)
    (msg : ControlMessage) (hmethod : r.Method ≠ MethodConnect)
    (hread : X.ReadControlMessage r = (some msg, none))
    (haction : msg.Action ≠ X.ActionProxy) :
    (c.serveHTTP r).panicked = true ∧ (c.serveHTTP r).out = [] ∧ (c.serveHTTP r).c = c := by
  simp [Client.serveHTTP, Client.httpError, hmethod, hread, haction]

/-- C6, instance: a `POST` whose action is `"restart"`. -/
theorem serveHTTP_unknown_action_witness :
    ((client0 script3).serveHTTP reqUnknown).panicked = true ∧
    ((client0 script3).serveHTTP reqUnknown).out = [] ∧
    ((client0 script3).serveHTTP reqUnknown).c = client0 script3 :=
  serveHTTP_unknown_action_panics (client0 script3) reqUnknown
    { Action := "restart", ForwardedHost := "web", ForwardedProto := "http",
      RemoteAddr := "10.0.0.1:4000" }
    (by decide) rfl (by decide)

/-- C10.  `NewClient` returns an error (and no client) exactly when the server
address is empty, the auth token is empty or the tunnel map is `nil`.  Otherwise
it returns a client with no connection, no recorded server error, the given
server address, auth token and identity name, and the backoff policy built by
`ExpBackoff` from 500 ms, 1.5, 60 s and 15 min. -/
theorem NewClient_spec (X : Pkg) (config : ClientConfig X) :
    ((∃ err, NewClient X config = .error err) ↔
      (config.ServerAddress = "" ∨ config.AuthToken = "" ∨ config.Tunnels = none)) ∧
    (¬ (config.ServerAddress = "" ∨ config.AuthToken = "" ∨ config.Tunnels = none) →
      ∃ c, NewClient X config = .ok c ∧
        c.conn = none ∧ c.serverErr = none ∧
        c.config.serverAddr = config.ServerAddress ∧
        c.config.authToken = config.AuthToken ∧
        c.config.idName = config.IdName ∧
        c.config.backoff = some (X.ExpBackoff
          { Interval := 500000000, Multiplier := 3 / 2,
            MaxInterval := 60000000000, MaxTime := 900000000000 })) := by
  by_cases h1 : config.ServerAddress = ""
  · simp [NewClient, h1]
  · by_cases h2 : config.AuthToken = ""
    · simp [NewClient, h1, h2]
    · cases h3 : config.Tunnels with
      | none => simp [NewClient, h1, h2, h3]
      | some ts =>
        have hconst : DefaultBackoffInterval = 500000000 ∧ DefaultBackoffMultiplier = 3 / 2 ∧
            DefaultBackoffMaxInterval = 60000000000 ∧ DefaultBackoffMaxTime = 900000000000 :=
          ⟨by decide, rfl, by decide, by decide⟩
        simp [NewClient, newClient, h1, h2, h3, hconst.1, hconst.2.1, hconst.2.2.1,
          hconst.2.2.2]

/-- C7.  With a backoff policy configured, let the first `n` attempts of this
call fail, each answered by `NextBackOff` with a delay that is not negative, and
let attempt `n + 1` succeed with `conn`.  Then `dial` (given fuel for `n + 1`
rounds) returns `conn` with no error; the calls it makes are exactly `n + 1` dial
attempts and `n` calls of `NextBackOff`, and one call of `Reset`, which is the
last call of all; the policy is left in the state `Reset` gives after those `n`
calls of `NextBackOff`. -/
theorem dial_retries_then_connects {X : Pkg} (env : Env) (s : Run X) (b : X.Backoff)
    (n : Nat) (conn : Conn) (fuel : Nat)
    (hb : s.c.config.backoff = some b)
    (hfail : ∀ i, i < n → ∃ e, (env.dialOutcome (s.dials + i)).result = .error e)
    (hdelay : ∀ i, i < n → 0 ≤ X.delay b i)
    (hok : (env.dialOutcome (s.dials + n)).result = .ok conn)
    (hfuel : n < fuel) :
    ∃ s' T, Client.dial env fuel s = some (.ok conn, s') ∧
      s'.trace = s.trace ++ T ∧
      T = retryTrace X env n s.dials b
            ++ (env.dialOutcome (s.dials + n)).events (s.dials + n) ++ [.reset] ∧
      T.countP Event.isDial = n + 1 ∧
      T.countP Event.isNextBackOff = n ∧
      T.count Event.reset = 1 ∧
      T.getLast? = some Event.reset ∧
      s'.dials = s.dials + n + 1 ∧
      s'.c.config.backoff = some (X.Reset (X.backoffAfter b n)) := by
  obtain ⟨r1, r2, _, r4⟩ := retryTrace_counts X env n s.dials b
  obtain ⟨e1, e2, _, e4⟩ := DialOutcome.events_counts (env.dialOutcome (s.dials + n)) (s.dials + n)
  refine ⟨{ s.setBackoff (X.Reset (X.backoffAfter b n)) with
        dials := s.dials + n + 1
        trace := s.trace ++ retryTrace X env n s.dials b
          ++ (env.dialOutcome (s.dials + n)).events (s.dials + n) ++ [.reset] },
      retryTrace X env n s.dials b
      ++ (env.dialOutcome (s.dials + n)).events (s.dials + n) ++ [.reset], ?_, ?_, rfl, ?_, ?_, ?_,
      ?_, rfl, rfl⟩
  · unfold Client.dial
    rw [hb]
    exact Client.dialLoop_success env n fuel b s conn hb hfail hdelay hok hfuel
  · simp [List.append_assoc]
  · simp [List.countP_append, r1, e1, Event.isDial]
  · simp [List.countP_append, r2, e2, Event.isNextBackOff]
  · simp [List.count_append, List.count_eq_zero.mpr r4, List.count_eq_zero.mpr e4]
  · simp

/-- C7, instance: three refused attempts, then connection 5, with the mock policy
answering 500 ms, 750 ms and 1125 ms.  The mock ends with three recorded calls of
`NextBackOff` and one of `Reset`. -/
theorem dial_retries_then_connects_witness :
    (∃ s' T, Client.dial envThreeFailures 4 (run0 script3) = some (.ok 5, s') ∧
      s'.trace = (run0 script3).trace ++ T ∧
      T = retryTrace (mockPkg script3) envThreeFailures 3 (run0 script3).dials (0, 0)
            ++ (envThreeFailures.dialOutcome ((run0 script3).dials + 3)).events
                ((run0 script3).dials + 3) ++ [.reset] ∧
      T.countP Event.isDial = 3 + 1 ∧
      T.countP Event.isNextBackOff = 3 ∧
      T.count Event.reset = 1 ∧
      T.getLast? = some Event.reset ∧
      s'.dials = (run0 script3).dials + 3 + 1 ∧
      s'.c.config.backoff
        = some ((mockPkg script3).Reset ((mockPkg script3).backoffAfter (0, 0) 3))) ∧
    (mockPkg script3).Reset ((mockPkg script3).backoffAfter (0, 0) 3) = (3, 1) ∧
    retryTrace (mockPkg script3) envThreeFailures 3 0 (0, 0)
        ++ (envThreeFailures.dialOutcome 3).events 3 ++ [.reset]
      = [.dial 0, .nextBackOff 500000000, .sleep 500000000,
         .dial 1, .nextBackOff 750000000, .sleep 750000000,
         .dial 2, .nextBackOff 1125000000, .sleep 1125000000,
         .dial 3, .reset] :=
  ⟨dial_retries_then_connects envThreeFailures (run0 script3) (0, 0) 3 5 4 rfl
      (fun i hi => ⟨.external 111, by
        have h : i = 0 ∨ i = 1 ∨ i = 2 := by omega
        rcases h with h | h | h <;> subst h <;> rfl⟩)
      (fun i hi => by
        have h : i = 0 ∨ i = 1 ∨ i = 2 := by omega
        rcases h with h | h | h <;> subst h <;> decide)
      rfl (by decide),
   rfl, rfl⟩

/-- C8.  With a backoff policy configured (state `b`):
`dial`, when it returns, returns an error exactly when some failed attempt of the
call is answered by `NextBackOff` with a negative duration.  When that happens at
attempt `n + 1`, `dial` (given fuel for `n + 1` rounds) returns the error of that
attempt wrapped as "backoff limit exceeded"; it has made `n + 1` dial attempts and
none after the negative answer, which is its last call; it has not called `Reset`
and has served nothing; the client's connection field is untouched.  If the client
held no connection, `connect` returns that error wrapped as "failed to connect",
the client still holds no connection, and `Start` returns the same error. -/
theorem dial_gives_up {X : Pkg} (env : Env) (s : Run X) (b : X.Backoff)
    (hb : s.c.config.backoff = some b) :
    (∀ fuel r s', Client.dial env fuel s = some (r, s') →
      ((∃ err, r = .error err) ↔ ∃ n, GivesUpAt X env s.dials b n)) ∧
    (∀ n, GivesUpAt X env s.dials b n → ∀ fuel, n < fuel →
      ∃ e s' T, (env.dialOutcome (s.dials + n)).result = .error e ∧
        Client.dial env fuel s = some (.error (.backoffLimit e), s') ∧
        s'.trace = s.trace ++ T ∧
        T = retryTrace X env n s.dials b
              ++ (env.dialOutcome (s.dials + n)).events (s.dials + n)
              ++ [.nextBackOff (X.delay b n)] ∧
        T.countP Event.isDial = n + 1 ∧
        T.getLast? = some (Event.nextBackOff (X.delay b n)) ∧
        Event.reset ∉ T ∧
        T.countP Event.isServeConn = 0 ∧
        s'.dials = s.dials + n + 1 ∧
        s'.serves = s.serves ∧
        s'.c.conn = s.c.conn ∧
        (s.c.conn = none →
          Client.connect env fuel s
            = some (.error (.failedToConnect (.backoffLimit e)), s') ∧
          s'.c.conn = none ∧
          ∀ rounds, Client.Start env fuel (rounds + 1) s
            = some (.failedToConnect (.backoffLimit e), s'))) := by
  have hdial : ∀ fuel, Client.dial env fuel s = Client.dialLoop env fuel b s := by
    intro fuel
    unfold Client.dial
    rw [hb]
  have hgive : ∀ n, GivesUpAt X env s.dials b n → ∀ fuel, n < fuel →
      ∃ e, (env.dialOutcome (s.dials + n)).result = .error e ∧
        Client.dial env fuel s = some (.error (.backoffLimit e),
          { s.setBackoff (X.backoffAfter b (n + 1)) with
            dials := s.dials + n + 1
            trace := s.trace ++ retryTrace X env n s.dials b
              ++ (env.dialOutcome (s.dials + n)).events (s.dials + n)
              ++ [.nextBackOff (X.delay b n)] }) := by
    intro n hn fuel hfuel
    obtain ⟨h1, h2, h3⟩ := hn
    obtain ⟨e, he⟩ := h1 n (Nat.le_refl n)
    refine ⟨e, he, ?_⟩
    rw [hdial]
    exact Client.dialLoop_giveup env n fuel b s e hb
      (fun i hi => h1 i (Nat.le_of_lt hi)) h2 he h3 hfuel
  constructor
  · intro fuel r s' hr
    constructor
    · rintro ⟨err, rfl⟩
      rw [hdial] at hr
      exact Client.dialLoop_error_only env fuel b s err s' hr
    · rintro ⟨n, hn⟩
      by_cases hfuel : n < fuel
      · obtain ⟨e, _, he⟩ := hgive n hn fuel hfuel
        rw [he] at hr
        cases hr
        exact ⟨_, rfl⟩
      · exfalso
        have hnone := Client.dialLoop_out_of_fuel env fuel b s hb
          (fun i hi => hn.1 i (by omega)) (fun i hi => hn.2.1 i (by omega))
        rw [hdial, hnone] at hr
        cases hr
  · intro n hn fuel hfuel
    obtain ⟨e, he, hres⟩ := hgive n hn fuel hfuel
    obtain ⟨r1, _, r3, r4⟩ := retryTrace_counts X env n s.dials b
    obtain ⟨e1, _, e3, e4⟩ :=
      DialOutcome.events_counts (env.dialOutcome (s.dials + n)) (s.dials + n)
    refine ⟨e, { s.setBackoff (X.backoffAfter b (n + 1)) with
        dials := s.dials + n + 1
        trace := s.trace ++ retryTrace X env n s.dials b
          ++ (env.dialOutcome (s.dials + n)).events (s.dials + n)
          ++ [.nextBackOff (X.delay b n)] },
      retryTrace X env n s.dials b
      ++ (env.dialOutcome (s.dials + n)).events (s.dials + n)
      ++ [.nextBackOff (X.delay b n)], he, hres, ?_, rfl, ?_, ?_, ?_, ?_, rfl, rfl, rfl, ?_⟩
    · simp [List.append_assoc]
    · simp [List.countP_append, r1, e1, Event.isDial]
    · simp
    · simp [r4, e4]
    · simp [List.countP_append, r3, e3, Event.isServeConn]
    · intro hc
      have hconnect : Client.connect env fuel s
          = some (.error (.failedToConnect (.backoffLimit e)),
              { s.setBackoff (X.backoffAfter b (n + 1)) with
                dials := s.dials + n + 1
                trace := s.trace ++ retryTrace X env n s.dials b
                  ++ (env.dialOutcome (s.dials + n)).events (s.dials + n)
                  ++ [.nextBackOff (X.delay b n)] }) := by
        unfold Client.connect
        rw [hres]
        simp [hc]
      refine ⟨hconnect, hc, ?_⟩
      intro rounds
      rw [Client.Start, hconnect]

/-- C8, instance: every attempt is refused and the mock policy answers 500 ms,
750 ms, 1125 ms and then a negative duration: the fourth failure is final. -/
theorem dial_gives_up_witness :
    GivesUpAt (mockPkg script3) envUnreachable 0 (0, 0) 3 ∧
    (∃ e s' T, (envUnreachable.dialOutcome ((run0 script3).dials + 3)).result = .error e ∧
      Client.dial envUnreachable 4 (run0 script3) = some (.error (.backoffLimit e), s') ∧
      s'.trace = (run0 script3).trace ++ T ∧
      T = retryTrace (mockPkg script3) envUnreachable 3 (run0 script3).dials (0, 0)
            ++ (envUnreachable.dialOutcome ((run0 script3).dials + 3)).events
                ((run0 script3).dials + 3)
            ++ [.nextBackOff ((mockPkg script3).delay (0, 0) 3)] ∧
      T.countP Event.isDial = 3 + 1 ∧
      T.getLast? = some (Event.nextBackOff ((mockPkg script3).delay (0, 0) 3)) ∧
      Event.reset ∉ T ∧
      T.countP Event.isServeConn = 0 ∧
      s'.dials = (run0 script3).dials + 3 + 1 ∧
      s'.serves = (run0 script3).serves ∧
      s'.c.conn = (run0 script3).c.conn ∧
      ((run0 script3).c.conn = none →
        Client.connect envUnreachable 4 (run0 script3)
          = some (.error (.failedToConnect (.backoffLimit e)), s') ∧
        s'.c.conn = none ∧
        ∀ rounds, Client.Start envUnreachable 4 (rounds + 1) (run0 script3)
          = some (.failedToConnect (.backoffLimit e), s'))) ∧
    (Client.Start envUnreachable 4 1 (run0 script3)).map Prod.fst
      = some (.failedToConnect (.backoffLimit (.external 111))) :=
  have hG : GivesUpAt (mockPkg script3) envUnreachable 0 (0, 0) 3 :=
    ⟨fun _ _ => ⟨.external 111, rfl⟩,
     fun i hi => by
       have h : i = 0 ∨ i = 1 ∨ i = 2 := by omega
       rcases h with h | h | h <;> subst h <;> decide,
     by decide⟩
  ⟨hG, (dial_gives_up envUnreachable (run0 script3) (0, 0) rfl).2 3 hG 4 (by decide), rfl⟩

/-- C9, what the code does.  Let a round of `Start` have connected (`connect` gave
`conn` and the run `s1`) and let serving have ended at time `now = env.now s1.serves`.
(a) If a server error `e` is recorded, `Start` returns `e`.
(b) Otherwise, if `now.Sub(lastDisconnect)` is less than 5 seconds, `Start` returns
the connection-cut error.  (c) Otherwise `Start` goes on with the next round.
In (a) and (b) the run `Start` ends in, and in (c) the run the next round starts
from, is the run after serving with the connection and the server error cleared
and `lastDisconnect` set to `now`; it has no dial attempt beyond those of `s1`.
`lastDisconnect` is, until then, the one the round started with.
The error a handshake error report records is "server error: " followed by the
text `fmt` makes of the server's message used as a format string: the message
itself when it has no percent sign, but not in general (see the instance). -/
theorem Start_after_serving {X : Pkg} (env : Env) (dialFuel fuel : Nat) (s s1 : Run X)
    (conn : Conn) (hconn : Client.connect env dialFuel s = some (.ok conn, s1)) :
    (∀ e, (Client.ServeConn env s1 conn).c.serverErr = some e →
      Client.Start env dialFuel (fuel + 1) s
        = some (e, (Client.ServeConn env s1 conn).cleared (env.now s1.serves))) ∧
    ((Client.ServeConn env s1 conn).c.serverErr = none →
      Time.Sub (env.now s1.serves) s.c.lastDisconnect < 5 * Second →
      Client.Start env dialFuel (fuel + 1) s
        = some (.connectionCut, (Client.ServeConn env s1 conn).cleared (env.now s1.serves))) ∧
    ((Client.ServeConn env s1 conn).c.serverErr = none →
      5 * Second ≤ Time.Sub (env.now s1.serves) s.c.lastDisconnect →
      Client.Start env dialFuel (fuel + 1) s
        = Client.Start env dialFuel fuel
            ((Client.ServeConn env s1 conn).cleared (env.now s1.serves))) ∧
    ((Client.ServeConn env s1 conn).cleared (env.now s1.serves)).c.conn = none ∧
    ((Client.ServeConn env s1 conn).cleared (env.now s1.serves)).c.serverErr = none ∧
    ((Client.ServeConn env s1 conn).cleared (env.now s1.serves)).c.lastDisconnect
      = env.now s1.serves ∧
    ((Client.ServeConn env s1 conn).cleared (env.now s1.serves)).dials = s1.dials ∧
    ((Client.ServeConn env s1 conn).cleared (env.now s1.serves)).trace
      = s1.trace ++ [.serveConn conn] ∧
    (Client.ServeConn env s1 conn).c.lastDisconnect = s.c.lastDisconnect ∧
    (∀ (c : Client X) (r : Request),
      (c.handleHandshakeError r).c.serverErr
        = some (.serverError (.header (fmt.Sprintf (r.HeaderGet X.HeaderError))))) ∧
    (∀ (c : Client X) (r : Request) (ext : Nat → String),
      '%' ∉ (r.HeaderGet X.HeaderError).toList →
      ∃ e, (c.handleHandshakeError r).c.serverErr = some e ∧
        e.text ext = "server error: " ++ r.HeaderGet X.HeaderError) := by
  have hlast : (Client.ServeConn env s1 conn).c.lastDisconnect = s.c.lastDisconnect := by
    have h1 := (Client.foldl_serveHTTP_frame (env.requests s1.serves) s1.c).1
    have h2 := (Client.connect_frame env dialFuel s s1 conn hconn).1
    simp only [Client.ServeConn]
    rw [h1, h2]
  have hstart : Client.Start env dialFuel (fuel + 1) s
      = match ((Client.ServeConn env s1 conn).c.disconnected (env.now s1.serves)).1 with
        | some e => some (e, (Client.ServeConn env s1 conn).cleared (env.now s1.serves))
        | none => Client.Start env dialFuel fuel
            ((Client.ServeConn env s1 conn).cleared (env.now s1.serves)) := by
    rw [Client.Start, hconn]
    rfl
  refine ⟨?_, ?_, ?_, rfl, rfl, rfl, rfl, rfl, hlast, fun _ _ => rfl, ?_⟩
  · intro e he
    rw [hstart]
    simp [Client.disconnected, he]
  · intro hnone hlt
    rw [hstart]
    have : (Time.Sub (env.now s1.serves)
        (Client.ServeConn env s1 conn).c.lastDisconnect).Seconds < 5 := by
      rw [hlast]
      exact (Duration.Seconds_lt_five _).mpr hlt
    simp [Client.disconnected, hnone, this]
  · intro hnone hge
    rw [hstart]
    have : ¬ (Time.Sub (env.now s1.serves)
        (Client.ServeConn env s1 conn).c.lastDisconnect).Seconds < 5 := by
      rw [hlast, Duration.Seconds_lt_five]
      exact not_lt.mpr hge
    simp [Client.disconnected, hnone, this]
  · intro c r ext hp
    refine ⟨_, rfl, ?_⟩
    simp only [Error.text]
    rw [fmt.Sprintf_no_percent _ hp]

/-- C9, instance at the failing input: the first attempt connects and the server
reports `"50% off"`.  `Start` returns an error whose text is
`"server error: 50%!o(MISSING)ff"`, which does not contain the server's message.
For the report `"auth token mismatch"` the returned text is
`"server error: auth token mismatch"`. -/
theorem Start_after_serving_witness :
    Client.connect envHalfOff 1 (run0 script3) = some (.ok 5, runConnected) ∧
    Client.Start envHalfOff 1 (0 + 1) (run0 script3)
      = some (.serverError (.header "50%!o(MISSING)ff"),
          (Client.ServeConn envHalfOff runConnected 5).cleared
            (envHalfOff.now runConnected.serves)) ∧
    (Error.serverError (.header "50%!o(MISSING)ff")).text (fun _ => "")
      = "server error: 50%!o(MISSING)ff" ∧
    ¬ ("50% off".toList <:+: "server error: 50%!o(MISSING)ff".toList) ∧
    ((Client.ServeConn envHalfOff runConnected 5).cleared
      (envHalfOff.now runConnected.serves)).trace = [.dial 0, .reset, .serveConn 5] ∧
    Client.connect envAuthFailed 1 (run0 script3) = some (.ok 5, runConnected) ∧
    Client.Start envAuthFailed 1 (0 + 1) (run0 script3)
      = some (.serverError (.header "auth token mismatch"),
          (Client.ServeConn envAuthFailed runConnected 5).cleared
            (envAuthFailed.now runConnected.serves)) ∧
    (Error.serverError (.header "auth token mismatch")).text (fun _ => "")
      = "server error: auth token mismatch" :=
  ⟨rfl,
   (Start_after_serving envHalfOff 1 0 (run0 script3) runConnected 5 rfl).1
     (.serverError (.header "50%!o(MISSING)ff")) rfl,
   rfl, by decide, rfl, rfl,
   (Start_after_serving envAuthFailed 1 0 (run0 script3) runConnected 5 rfl).1
     (.serverError (.header "auth token mismatch")) rfl,
   rfl⟩

end Vedran
